import Mathlib

/-!
# Realtime salary display: the accrual and sampling engine of `src/main.js`

A shallow embedding of the class `SalaryCalculator` and theorems about it.

Modelling conventions.

* A JavaScript number is a binary64 value.  The model keeps its exact rational value
  (`ℚ`) and rounds the result of every division and multiplication of the accrual, of
  the conversion of a live amount and of the rounding block with `fl64` (round to
  nearest, ties to even, 53 significant bits).  The exponent range is not bounded, so
  overflow to infinity and subnormal numbers are outside the model, and a division by
  zero gives 0 where the source gives `Infinity` or `NaN`; `start` excludes it.
* The conversion of the stored samples at a currency toggle (lines 287 and 294) is
  modelled in exact arithmetic: its statements are statements over the reals, and on
  whole amounts the nearest tie is at least 1/14 away, far above the rounding error
  of binary64 for amounts below 10^14.
* Counters of milliseconds and minutes are integers in the source and are `Nat` or
  `Int` here; they stay far below `2 ^ 53`, where binary64 is exact on integers.
* A `Date` is used by the source only through `getHours`, `getMinutes`, `getSeconds`
  and `getMilliseconds`; it is modelled by these four readings.
* The wall clock (`new Date()`) is an explicit argument `now` of every method that
  reads it.  One callback reads the clock once.
* The fields `startTime` and `endTime` start as `null`; a method that dereferences a
  `null` field throws a `TypeError`, which is the result `none`.
* DOM writes, the chart surface, alerts and the timer handle are not part of the state.
-/

namespace SalaryDisplay

/-! ## Data model -/

/-- The readings of a JavaScript `Date` that the program uses. -/
structure Date where
  hours : Nat
  minutes : Nat
  seconds : Nat
  milliseconds : Nat
deriving DecidableEq

/-- The instant of a `Date` within its day, in milliseconds; all dates of one run
are dates of the same day, so this is what `<=` between two of them compares. -/
def Date.msOfDay (d : Date) : Nat :=
  d.hours * 3600000 + d.minutes * 60000 + d.seconds * 1000 + d.milliseconds

/-- The readings are those of a real clock. -/
def Date.wellFormed (d : Date) : Prop :=
  d.hours < 24 ∧ d.minutes < 60 ∧ d.seconds < 60 ∧ d.milliseconds < 1000

/-- Whether the readings are those of a real clock can be computed. -/
instance (d : Date) : Decidable d.wellFormed := by
  unfold Date.wellFormed
  infer_instance

/-- The values of `currentCurrency`: the strings `RMB` and `USD`. -/
inductive Currency where
  | RMB
  | USD
deriving DecidableEq

/-- One element of `chartData`: the object `{time, value, minute}`. -/
structure DataPoint where
  time : String
  value : ℚ
  minute : Int
deriving DecidableEq

/-- The fields of a `SalaryCalculator` that the engine reads and writes. -/
structure SalaryCalculator where
  dailySalary : ℚ
  startTime : Option Date
  endTime : Option Date
  updateFrequency : Int
  isRunning : Bool
  currentCurrency : Currency
  exchangeRate : ℚ
  chartData : List DataPoint
  maxDataPoints : Nat
deriving DecidableEq

/-- The state after `constructor()` (lines 3-16). -/
def SalaryCalculator.new : SalaryCalculator where
  dailySalary := 0
  startTime := none
  endTime := none
  updateFrequency := 500
  isRunning := false
  currentCurrency := Currency.RMB
  exchangeRate := 7
  chartData := []
  maxDataPoints := 50

/-! ## Primitives of the host language -/

/-- The function `Math.round`: the nearest integer, a tie going up. -/
def Math.round (x : ℚ) : ℚ := ((⌊x + 1 / 2⌋ : Int) : ℚ)

/-- Rounding of a rational to the nearest integer, a tie going to the even one. -/
def roundHalfEven (t : ℚ) : Int :=
  let f : Int := ⌊t⌋
  let r : ℚ := t - (f : ℚ)
  if r < 1 / 2 then f
  else if 1 / 2 < r then f + 1
  else if f % 2 = 0 then f else f + 1

/-- The binary64 value of an exact result: zero stays zero, otherwise the result is
rounded to the nearest multiple of `2 ^ (e - 52)`, a tie going to the even multiple,
where `2 ^ e` is the power of two at or below its magnitude (53 significant bits).
The exponent is not bounded: overflow and subnormal numbers are outside the model. -/
def fl64 (x : ℚ) : ℚ :=
  if x = 0 then 0
  else
    let scale : ℚ := (2 : ℚ) ^ (52 - Int.log 2 |x|)
    (roundHalfEven (x * scale) : ℚ) / scale

/-- The expression `String(n).padStart(2, '0')` for a non-negative integer `n`. -/
def padStart2 (n : Nat) : String :=
  let str := toString n
  String.mk (List.replicate (2 - str.length) '0') ++ str

/-- The template literal of lines 128 and 502, from the two numbers it prints. -/
def timeStr (hours minutes : Nat) : String :=
  padStart2 hours ++ ":" ++ padStart2 minutes

/-- The rounding block of lines 135-140 and 491-496: RMB to the unit, USD to 0.1,
the product by 10 and the quotient by 10 being binary64 results. -/
def preciseValue (currency : Currency) (value : ℚ) : ℚ :=
  match currency with
  | Currency.RMB => Math.round value
  | Currency.USD => fl64 (Math.round (fl64 (value * 10)) / 10)

/-! ## Time interval and accrual (lines 181-220) -/

/-- The method `calculateTotalMinutes` (lines 205-209). -/
def calculateTotalMinutes (s : SalaryCalculator) : Option Int :=
  match s.startTime, s.endTime with
  | some st, some en =>
    let startTimeInMinutes : Int := st.hours * 60 + st.minutes
    let endTimeInMinutes : Int := en.hours * 60 + en.minutes
    some (endTimeInMinutes - startTimeInMinutes)
  | _, _ => none

/-- The method `calculateWorkedMinutes` (lines 182-202). -/
def calculateWorkedMinutes (s : SalaryCalculator) (now : Date) : Option ℚ :=
  match s.startTime, s.endTime with
  | some st, some en =>
    let currentTimeInMs : Nat :=
      now.hours * 3600000 + now.minutes * 60000 + now.seconds * 1000 + now.milliseconds
    let startTimeInMs : Nat := st.hours * 3600000 + st.minutes * 60000
    let endTimeInMs : Nat := en.hours * 3600000 + en.minutes * 60000
    if currentTimeInMs < startTimeInMs then
      some 0
    else if currentTimeInMs ≥ endTimeInMs then
      some (fl64 (((endTimeInMs : ℚ) - (startTimeInMs : ℚ)) / 60000))
    else
      some (fl64 (((currentTimeInMs : ℚ) - (startTimeInMs : ℚ)) / 60000))
  | _, _ => none

/-- The method `calculateCurrentEarnings` (lines 212-220). -/
def calculateCurrentEarnings (s : SalaryCalculator) (now : Date) : Option ℚ :=
  match calculateWorkedMinutes s now, calculateTotalMinutes s with
  | some workedMinutes, some totalMinutes =>
    if totalMinutes ≤ 0 then
      some 0
    else
      let earnings := fl64 (fl64 (s.dailySalary / (totalMinutes : ℚ)) * workedMinutes)
      some (max 0 earnings)
  | _, _ => none

/-! ## The sample window (lines 108-151 and 475-521) -/

/-- The object pushed by one round of the loop of `generateHistoricalData`
(lines 124-146), for the loop counter `i`. -/
def historicalPoint (s : SalaryCalculator) (startTimeInMs : Nat) (totalMinutes : Int)
    (i : Nat) : DataPoint :=
  let minuteEarnings : ℚ := fl64 (fl64 (s.dailySalary / (totalMinutes : ℚ)) * (i : ℚ))
  let timeInMs : Nat := startTimeInMs + i * 60000
  let hours : Nat := timeInMs / 3600000
  let minutes : Nat := (timeInMs % 3600000) / 60000
  let displayValue : ℚ :=
    match s.currentCurrency with
    | Currency.USD => fl64 (minuteEarnings / s.exchangeRate)
    | Currency.RMB => minuteEarnings
  { time := timeStr hours minutes
    value := preciseValue s.currentCurrency displayValue
    minute := (i : Int) }

/-- The method `generateHistoricalData` (lines 108-151): the loop
`for (let i = 0; i <= workedMinutes; i++)` pushes one point per round. -/
def generateHistoricalData (s : SalaryCalculator) (now : Date) : Option SalaryCalculator :=
  match s.startTime with
  | none => none
  | some st =>
    let currentTimeInMs : Nat :=
      now.hours * 3600000 + now.minutes * 60000 + now.seconds * 1000
    let startTimeInMs : Nat := st.hours * 3600000 + st.minutes * 60000
    if currentTimeInMs < startTimeInMs then
      some s
    else
      let workedMinutes : Nat := (currentTimeInMs - startTimeInMs) / 60000
      match calculateTotalMinutes s with
      | none => none
      | some totalMinutes =>
        some { s with
          chartData := (List.range (workedMinutes + 1)).foldl
            (fun data i => data ++ [historicalPoint s startTimeInMs totalMinutes i])
            s.chartData }

/-- The method `updateChartData` (lines 475-521). -/
def updateChartData (s : SalaryCalculator) (now : Date) (value : ℚ) :
    Option SalaryCalculator :=
  match s.startTime with
  | none => none
  | some st =>
    let currentTimeInMs : Nat := now.hours * 3600000 + now.minutes * 60000
    let startTimeInMs : Nat := st.hours * 3600000 + st.minutes * 60000
    let currentMinute : Int := ((currentTimeInMs : Int) - (startTimeInMs : Int)) / 60000
    match s.chartData.getLast? with
    | none => some s
    | some lastDataPoint =>
      let precise := preciseValue s.currentCurrency value
      if lastDataPoint.minute < currentMinute then
        let hours : Nat := currentTimeInMs / 3600000
        let minutes : Nat := (currentTimeInMs % 3600000) / 60000
        let pushed : List DataPoint :=
          s.chartData ++ [{ time := timeStr hours minutes, value := precise,
                            minute := currentMinute }]
        some { s with
          chartData := if pushed.length > s.maxDataPoints then pushed.tail else pushed }
      else
        some { s with
          chartData := s.chartData.dropLast ++ [{ lastDataPoint with value := precise }] }

/-- The method `updateDisplay` (lines 223-266), without its DOM writes: the amount
in the active currency goes to `updateChartData`. -/
def updateDisplay (s : SalaryCalculator) (now : Date) : Option SalaryCalculator :=
  match calculateCurrentEarnings s now with
  | none => none
  | some earningsRMB =>
    let displayAmount : ℚ :=
      match s.currentCurrency with
      | Currency.USD => fl64 (earningsRMB / s.exchangeRate)
      | Currency.RMB => earningsRMB
    updateChartData s now displayAmount

/-! ## Currency toggle (lines 269-318) -/

/-- The mapping of line 287, RMB to USD, on one value, in exact arithmetic. -/
def toUSD (exchangeRate value : ℚ) : ℚ := Math.round ((value / exchangeRate) * 10) / 10

/-- The mapping of line 294, USD to RMB, on one value, in exact arithmetic. -/
def toRMB (exchangeRate value : ℚ) : ℚ := Math.round (value * exchangeRate)

/-- Lines 270-297 of `toggleCurrency`: the currency flips and every stored value is
converted; `time` and `minute` are copied. -/
def convertChartData (s : SalaryCalculator) : SalaryCalculator :=
  match s.currentCurrency with
  | Currency.RMB =>
    { s with
      currentCurrency := Currency.USD
      chartData := s.chartData.map fun d =>
        { time := d.time, value := toUSD s.exchangeRate d.value, minute := d.minute } }
  | Currency.USD =>
    { s with
      currentCurrency := Currency.RMB
      chartData := s.chartData.map fun d =>
        { time := d.time, value := toRMB s.exchangeRate d.value, minute := d.minute } }

/-- The method `toggleCurrency` (lines 269-318): the conversion, then one
`updateDisplay` when the session is running. -/
def toggleCurrency (s : SalaryCalculator) (now : Date) : Option SalaryCalculator :=
  let converted := convertChartData s
  if converted.isRunning then updateDisplay converted now else some converted

/-! ## Session start (lines 59-105) -/

/-- What `start` reads from the page: the results of `parseFloat` and `parseInt`
(`none` is `NaN`) and the values of the two time inputs (`none` is the empty string,
otherwise the hour and the minute of an `HH:MM` string). -/
structure StartRequest where
  dailySalary : Option ℚ
  updateFrequency : Option Int
  startTime : Option (Nat × Nat)
  endTime : Option (Nat × Nat)
deriving DecidableEq

/-- The method `parseTime` (lines 169-174) on the two numbers of an `HH:MM` string. -/
def parseTime (hm : Nat × Nat) : Date :=
  { hours := hm.1, minutes := hm.2, seconds := 0, milliseconds := 0 }

/-- The expression `parseFloat(...) || 0` of line 61. -/
def orZero (parsed : Option ℚ) : ℚ :=
  match parsed with
  | none => 0
  | some v => v

/-- The expression `parseInt(...) || 500` of line 62. -/
def orDefaultFrequency (parsed : Option Int) : Int :=
  match parsed with
  | none => 500
  | some v => if v = 0 then 500 else v

/-- The method `start` (lines 59-105). -/
def start (s : SalaryCalculator) (req : StartRequest) (now : Date) :
    Option SalaryCalculator :=
  let s1 := { s with
    dailySalary := orZero req.dailySalary
    updateFrequency := orDefaultFrequency req.updateFrequency }
  match req.startTime, req.endTime with
  | some startTimeStr, some endTimeStr =>
    if s1.dailySalary ≤ 0 then
      some s1
    else
      let s2 := { s1 with
        startTime := some (parseTime startTimeStr)
        endTime := some (parseTime endTimeStr) }
      if (parseTime endTimeStr).msOfDay ≤ (parseTime startTimeStr).msOfDay then
        some s2
      else
        match generateHistoricalData { s2 with chartData := [] } now with
        | none => none
        | some s3 => updateDisplay { s3 with isRunning := true } now
  | _, _ => some s1

/-! ## Concrete sessions used as inputs -/

/-- A session of 09:00-18:00 at 800 a day, before its backfill. -/
def overflowState : SalaryCalculator :=
  { SalaryCalculator.new with
    dailySalary := 800
    startTime := some { hours := 9, minutes := 0, seconds := 0, milliseconds := 0 }
    endTime := some { hours := 18, minutes := 0, seconds := 0, milliseconds := 0 } }

/-- A session of 09:00-14:00 (300 minutes) at 600 a day, before its backfill. -/
def scenarioC : SalaryCalculator :=
  { SalaryCalculator.new with
    dailySalary := 600
    startTime := some { hours := 9, minutes := 0, seconds := 0, milliseconds := 0 }
    endTime := some { hours := 14, minutes := 0, seconds := 0, milliseconds := 0 } }

/-- A session of 09:00-10:00 at 60 a day, before its backfill. -/
def afterEndState : SalaryCalculator :=
  { SalaryCalculator.new with
    dailySalary := 60
    startTime := some { hours := 9, minutes := 0, seconds := 0, milliseconds := 0 }
    endTime := some { hours := 10, minutes := 0, seconds := 0, milliseconds := 0 } }

/-- The request 5400 a day, 09:00-18:00, default period. -/
def tickingRequest : StartRequest :=
  { dailySalary := some 5400
    updateFrequency := none
    startTime := some (9, 0)
    endTime := some (18, 0) }

/-- The session that `tickingRequest` starts at 09:00:30: running, with the single
sample of minute 0 holding the 5 earned in the first half minute. -/
def tickingState : SalaryCalculator :=
  { SalaryCalculator.new with
    dailySalary := 5400
    startTime := some { hours := 9, minutes := 0, seconds := 0, milliseconds := 0 }
    endTime := some { hours := 18, minutes := 0, seconds := 0, milliseconds := 0 }
    isRunning := true
    chartData := [{ time := "09:00", value := 5, minute := 0 }] }

/-- A stopped session of 09:00-18:00 at 800 a day whose window holds the sample of
13:30 with value 400. -/
def stoppedState : SalaryCalculator :=
  { SalaryCalculator.new with
    dailySalary := 800
    startTime := some { hours := 9, minutes := 0, seconds := 0, milliseconds := 0 }
    endTime := some { hours := 18, minutes := 0, seconds := 0, milliseconds := 0 }
    chartData := [{ time := "13:30", value := 400, minute := 270 }] }

/-- A request whose end time is not after its start time. -/
def invertedRequest : StartRequest :=
  { dailySalary := some 100
    updateFrequency := some 1000
    startTime := some (10, 0)
    endTime := some (9, 0) }

/-! ## Runs of the session -/

/-- The `minute` of every stored sample, in window order. -/
def buckets (s : SalaryCalculator) : List Int :=
  s.chartData.map fun d => d.minute

/-- A sequence of calls of `updateChartData`, each with its instant and its value. -/
def updateChartDataAll : SalaryCalculator → List (Date × ℚ) → Option SalaryCalculator
  | s, [] => some s
  | s, tick :: rest =>
    match updateChartData s tick.1 tick.2 with
    | none => none
    | some t => updateChartDataAll t rest

/-- What happens to a running session: the timer fires, or the currency button is
clicked, at some instant. -/
inductive Event where
  | tick (now : Date)
  | toggle (now : Date)

/-- The callback of one event: `updateDisplay` for the timer (lines 102-104),
`toggleCurrency` for the button (line 48). -/
def step (s : SalaryCalculator) : Event → Option SalaryCalculator
  | Event.tick now => updateDisplay s now
  | Event.toggle now => toggleCurrency s now

/-- The callbacks of a sequence of events, in order. -/
def run : SalaryCalculator → List Event → Option SalaryCalculator
  | s, [] => some s
  | s, e :: rest =>
    match step s e with
    | none => none
    | some t => run t rest

/-- The effect of one call of `updateChartData` on the list of buckets, for the
capacity `cap`: nothing, or one greater bucket pushed and the first one shifted out
on overflow.  Used in proofs only. -/
def BucketStep (cap : Nat) (m m' : List Int) : Prop :=
  m' = m ∨ ∃ last cm, m.getLast? = some last ∧ last < cm ∧
    m' = if m.length + 1 > cap then (m ++ [cm]).tail else m ++ [cm]

/-- Relation between the buckets of an earlier and of a later window of capacity 50:
the window did not shrink, a bucket that left it is below every bucket of a full
window, and no bucket of the later window is below all the earlier ones.  Used in
proofs only. -/
def Covers (m m' : List Int) : Prop :=
  m.length ≤ m'.length ∧
    (∀ x ∈ m, x ∈ m' ∨ (m'.length = 50 ∧ ∀ y ∈ m', x < y)) ∧
    (∀ y ∈ m', ∃ x ∈ m, x ≤ y)

/-- A session of 09:00-10:00 at 550 a day, before its backfill. -/
def halfUnitState : SalaryCalculator :=
  { SalaryCalculator.new with
    dailySalary := 550
    startTime := some { hours := 9, minutes := 0, seconds := 0, milliseconds := 0 }
    endTime := some { hours := 10, minutes := 0, seconds := 0, milliseconds := 0 } }

/-- A session of 09:00-09:11 at 800 a day. -/
def elevenMinuteState : SalaryCalculator :=
  { SalaryCalculator.new with
    dailySalary := 800
    startTime := some { hours := 9, minutes := 0, seconds := 0, milliseconds := 0 }
    endTime := some { hours := 9, minutes := 11, seconds := 0, milliseconds := 0 } }

/-! ## The label of a minute, as the spec words it -/

/-- The label `HH:MM` of a minute of the day in the words of the spec: the two decimal
digits of the hour, a colon, the two decimal digits of the minute.  It is written
without `timeStr`, to compare the code with it. -/
def labelHHMM (minuteOfDay : Nat) : String :=
  let h := minuteOfDay / 60
  let m := minuteOfDay % 60
  String.mk [Nat.digitChar (h / 10), Nat.digitChar (h % 10), ':',
    Nat.digitChar (m / 10), Nat.digitChar (m % 10)]

/-! ## Binary64 rounding -/

/-- Rounding to even gives the floor or the next integer. -/
theorem roundHalfEven_mem (t : ℚ) :
    roundHalfEven t = ⌊t⌋ ∨ roundHalfEven t = ⌊t⌋ + 1 := by
  unfold roundHalfEven
  simp only
  split_ifs <;> simp

/-- Rounding to even moves a number by at most one half. -/
theorem abs_roundHalfEven_sub_le (t : ℚ) : |(roundHalfEven t : ℚ) - t| ≤ 1 / 2 := by
  have h1 := Int.floor_le t
  have h2 := Int.lt_floor_add_one t
  unfold roundHalfEven
  simp only
  rw [abs_le]
  split_ifs with ha hb hc
  · constructor <;> linarith
  · push_cast; constructor <;> linarith
  · constructor <;> linarith
  · push_cast; constructor <;> linarith

/-- Rounding to even leaves an integer as it is. -/
theorem roundHalfEven_intCast (z : Int) : roundHalfEven (z : ℚ) = z := by
  unfold roundHalfEven
  simp

/-- Rounding to even is monotone. -/
theorem roundHalfEven_mono {t u : ℚ} (h : t ≤ u) : roundHalfEven t ≤ roundHalfEven u := by
  have hf : ⌊t⌋ ≤ ⌊u⌋ := Int.floor_le_floor h
  rcases lt_or_eq_of_le hf with hlt | heq
  · have h1 : roundHalfEven t ≤ ⌊t⌋ + 1 := by
      rcases roundHalfEven_mem t with e | e <;> omega
    have h2 : ⌊u⌋ ≤ roundHalfEven u := by
      rcases roundHalfEven_mem u with e | e <;> omega
    omega
  · unfold roundHalfEven
    simp only
    rw [← heq]
    have hsub : t - (⌊t⌋ : ℚ) ≤ u - (⌊t⌋ : ℚ) := by linarith
    split_ifs <;> first | omega | (exfalso; linarith)

/-- The integer strictly within one half of `t` is its rounding to even. -/
theorem roundHalfEven_eq_of_lt (t : ℚ) (z : Int) (h1 : (z : ℚ) - 1 / 2 < t)
    (h2 : t < (z : ℚ) + 1 / 2) : roundHalfEven t = z := by
  have hb := abs_roundHalfEven_sub_le t
  rw [abs_le] at hb
  have h3 : ((roundHalfEven t : Int) : ℚ) < (z : ℚ) + 1 := by linarith
  have h4 : (z : ℚ) - 1 < ((roundHalfEven t : Int) : ℚ) := by linarith
  have h5 : roundHalfEven t < z + 1 := by exact_mod_cast h3
  have h6 : z - 1 < roundHalfEven t := by exact_mod_cast h4
  omega

/-- Zero is a binary64 value. -/
theorem fl64_zero : fl64 0 = 0 := by
  simp [fl64]

/-- A power of two is positive. -/
theorem two_zpow_pos (k : Int) : (0 : ℚ) < (2 : ℚ) ^ k := zpow_pos (by norm_num) k

/-- The scaled argument of a positive number lies between `2 ^ 52` and `2 ^ 53`. -/
theorem scaled_bounds (x : ℚ) (hx : 0 < x) :
    (2 : ℚ) ^ (52 : Int) ≤ x * (2 : ℚ) ^ (52 - Int.log 2 x) ∧
      x * (2 : ℚ) ^ (52 - Int.log 2 x) < (2 : ℚ) ^ (53 : Int) := by
  have h1 : ((2 : ℕ) : ℚ) ^ Int.log 2 x ≤ x := Int.zpow_log_le_self (by norm_num) hx
  have h2 : x < ((2 : ℕ) : ℚ) ^ (Int.log 2 x + 1) := Int.lt_zpow_succ_log_self (by norm_num) x
  have hs := two_zpow_pos (52 - Int.log 2 x)
  have e1 : (2 : ℚ) ^ (52 : Int) = (2 : ℚ) ^ Int.log 2 x * (2 : ℚ) ^ (52 - Int.log 2 x) := by
    rw [← zpow_add₀ (by norm_num : (2 : ℚ) ≠ 0)]; congr 1; ring
  have e2 : (2 : ℚ) ^ (53 : Int) =
      (2 : ℚ) ^ (Int.log 2 x + 1) * (2 : ℚ) ^ (52 - Int.log 2 x) := by
    rw [← zpow_add₀ (by norm_num : (2 : ℚ) ≠ 0)]; congr 1; ring
  push_cast at h1 h2
  rw [e1, e2]
  exact ⟨mul_le_mul_of_nonneg_right h1 hs.le, mul_lt_mul_of_pos_right h2 hs⟩

/-- The binary64 value of a positive number stays in its binade, ends included. -/
theorem fl64_bounds (x : ℚ) (hx : 0 < x) :
    (2 : ℚ) ^ Int.log 2 x ≤ fl64 x ∧ fl64 x ≤ (2 : ℚ) ^ (Int.log 2 x + 1) := by
  obtain ⟨b1, b2⟩ := scaled_bounds x hx
  have hs := two_zpow_pos (52 - Int.log 2 x)
  have c1 : ((2 : Int) ^ 52 : Int) ≤ roundHalfEven (x * (2 : ℚ) ^ (52 - Int.log 2 x)) := by
    have := roundHalfEven_mono (show (((2 : Int) ^ 52 : Int) : ℚ) ≤ _ by
      push_cast; exact_mod_cast b1)
    rwa [roundHalfEven_intCast] at this
  have c2 : roundHalfEven (x * (2 : ℚ) ^ (52 - Int.log 2 x)) ≤ ((2 : Int) ^ 53 : Int) := by
    have := roundHalfEven_mono (show _ ≤ (((2 : Int) ^ 53 : Int) : ℚ) by
      push_cast; exact_mod_cast b2.le)
    rwa [roundHalfEven_intCast] at this
  have d1 : ((2 : ℚ) ^ (52 : Int)) ≤ (roundHalfEven (x * (2 : ℚ) ^ (52 - Int.log 2 x)) : ℚ) := by
    have : (((2 : Int) ^ 52 : Int) : ℚ) ≤ _ := Int.cast_le.mpr c1
    push_cast at this; exact_mod_cast this
  have d2 : (roundHalfEven (x * (2 : ℚ) ^ (52 - Int.log 2 x)) : ℚ) ≤ (2 : ℚ) ^ (53 : Int) := by
    have : _ ≤ (((2 : Int) ^ 53 : Int) : ℚ) := Int.cast_le.mpr c2
    push_cast at this; exact_mod_cast this
  have e1 : (2 : ℚ) ^ Int.log 2 x = (2 : ℚ) ^ (52 : Int) / (2 : ℚ) ^ (52 - Int.log 2 x) := by
    rw [← zpow_sub₀ (by norm_num : (2 : ℚ) ≠ 0)]; congr 1; ring
  have e2 : (2 : ℚ) ^ (Int.log 2 x + 1) =
      (2 : ℚ) ^ (53 : Int) / (2 : ℚ) ^ (52 - Int.log 2 x) := by
    rw [← zpow_sub₀ (by norm_num : (2 : ℚ) ≠ 0)]; congr 1; ring
  have habs : |x| = x := abs_of_pos hx
  simp only [fl64, hx.ne', if_false, habs]
  rw [e1, e2]
  exact ⟨div_le_div_of_nonneg_right d1 hs.le, div_le_div_of_nonneg_right d2 hs.le⟩

/-- The binary64 value of a non-negative number is non-negative. -/
theorem fl64_nonneg {x : ℚ} (hx : 0 ≤ x) : 0 ≤ fl64 x := by
  rcases hx.eq_or_lt with h | h
  · rw [← h, fl64_zero]
  · exact le_trans (two_zpow_pos _).le (fl64_bounds x h).1

/-- On non-negative numbers the binary64 rounding is monotone. -/
theorem fl64_mono {x y : ℚ} (hx : 0 ≤ x) (h : x ≤ y) : fl64 x ≤ fl64 y := by
  rcases hx.eq_or_lt with h0 | h0
  · rw [← h0, fl64_zero]; exact fl64_nonneg (le_trans hx h)
  have hy : 0 < y := lt_of_lt_of_le h0 h
  have hlog : Int.log 2 x ≤ Int.log 2 y := Int.log_mono_right h0 h
  rcases lt_or_eq_of_le hlog with hlt | heq
  · have h1 := (fl64_bounds x h0).2
    have h2 := (fl64_bounds y hy).1
    have h3 : (2 : ℚ) ^ (Int.log 2 x + 1) ≤ (2 : ℚ) ^ Int.log 2 y :=
      zpow_le_zpow_right₀ (by norm_num) (by omega)
    linarith
  · have hs := two_zpow_pos (52 - Int.log 2 y)
    simp only [fl64, h0.ne', hy.ne', if_false, abs_of_pos h0, abs_of_pos hy, heq]
    apply div_le_div_of_nonneg_right _ hs.le
    exact Int.cast_le.mpr (roundHalfEven_mono (mul_le_mul_of_nonneg_right h hs.le))

/-- The binary64 rounding moves a number by at most `2 ^ (-53)` of its magnitude. -/
theorem abs_fl64_sub_le (x : ℚ) : |fl64 x - x| ≤ |x| / 2 ^ 53 := by
  by_cases hx : x = 0
  · simp [hx, fl64_zero]
  have hpos : 0 < |x| := abs_pos.mpr hx
  have hs := two_zpow_pos (52 - Int.log 2 |x|)
  have h1 : ((2 : ℕ) : ℚ) ^ Int.log 2 |x| ≤ |x| := Int.zpow_log_le_self (by norm_num) hpos
  push_cast at h1
  have hr := abs_roundHalfEven_sub_le (x * (2 : ℚ) ^ (52 - Int.log 2 |x|))
  simp only [fl64, hx, if_false]
  have e : (roundHalfEven (x * (2 : ℚ) ^ (52 - Int.log 2 |x|)) : ℚ) /
      (2 : ℚ) ^ (52 - Int.log 2 |x|) - x =
      ((roundHalfEven (x * (2 : ℚ) ^ (52 - Int.log 2 |x|)) : ℚ) -
        x * (2 : ℚ) ^ (52 - Int.log 2 |x|)) / (2 : ℚ) ^ (52 - Int.log 2 |x|) := by
    field_simp
    ring
  rw [e, abs_div, abs_of_pos hs]
  have e2 : (2 : ℚ) ^ Int.log 2 |x| / 2 ^ 53 = 1 / 2 / (2 : ℚ) ^ (52 - Int.log 2 |x|) := by
    rw [zpow_sub₀ (by norm_num : (2 : ℚ) ≠ 0)]
    have : (2 : ℚ) ^ Int.log 2 |x| ≠ 0 := (two_zpow_pos _).ne'
    field_simp
    norm_num
  calc _ ≤ 1 / 2 / (2 : ℚ) ^ (52 - Int.log 2 |x|) := div_le_div_of_nonneg_right hr hs.le
    _ = (2 : ℚ) ^ Int.log 2 |x| / 2 ^ 53 := e2.symm
    _ ≤ |x| / 2 ^ 53 := div_le_div_of_nonneg_right h1 (by positivity)

/-- Evaluation of the binary64 rounding: with the binade `e` of the argument and the
integer `z` nearest to the scaled argument (no tie), the value is `z / 2 ^ (52 - e)`. -/
theorem fl64_eq_of (x : ℚ) (e z : Int) (h1 : (2 : ℚ) ^ e ≤ |x|)
    (h2 : |x| < (2 : ℚ) ^ (e + 1)) (h3 : (z : ℚ) - 1 / 2 < x * (2 : ℚ) ^ (52 - e))
    (h4 : x * (2 : ℚ) ^ (52 - e) < (z : ℚ) + 1 / 2) :
    fl64 x = (z : ℚ) / (2 : ℚ) ^ (52 - e) := by
  have hpos : 0 < |x| := lt_of_lt_of_le (two_zpow_pos e) h1
  have hx : x ≠ 0 := abs_pos.mp hpos
  have hlog : Int.log 2 |x| = e := by
    apply le_antisymm
    · have := (Int.lt_zpow_iff_log_lt (b := 2) (by norm_num) (x := e + 1) hpos).mp
        (by push_cast; exact h2)
      omega
    · exact (Int.zpow_le_iff_le_log (b := 2) (by norm_num) hpos).mp (by push_cast; exact h1)
  simp only [fl64, hx, if_false, hlog]
  rw [roundHalfEven_eq_of_lt _ z h3 h4]

/-- A natural number below `2 ^ 53` is a binary64 value. -/
theorem fl64_natCast (n : ℕ) (h : n < 2 ^ 53) : fl64 (n : ℚ) = (n : ℚ) := by
  rcases Nat.eq_zero_or_pos n with h0 | h0
  · simp [h0, fl64_zero]
  have hk : Nat.log 2 n < 53 := Nat.log_lt_of_lt_pow (by omega) h
  have hx : (n : ℚ) ≠ 0 := by exact_mod_cast h0.ne'
  have hlog : Int.log 2 |(n : ℚ)| = (Nat.log 2 n : Int) := by
    rw [abs_of_nonneg (by positivity), Int.log_natCast]
  have hexp : (52 : Int) - (Nat.log 2 n : Int) = ((52 - Nat.log 2 n : ℕ) : Int) := by omega
  simp only [fl64, hx, if_false, hlog, hexp, zpow_natCast]
  have hcast : (n : ℚ) * 2 ^ (52 - Nat.log 2 n) =
      (((n * 2 ^ (52 - Nat.log 2 n) : ℕ) : Int) : ℚ) := by push_cast; ring
  rw [hcast, roundHalfEven_intCast]
  push_cast
  field_simp

/-- The accrual product as the machine computes it is within `d / 2 ^ 51` of the
exact product, for a worked time within the total. -/
theorem fl64_accrual_close (d T w : ℚ) (hd : 0 ≤ d) (hT : 0 < T) (hw : 0 ≤ w)
    (hwT : w ≤ T) : |fl64 (fl64 (d / T) * w) - d / T * w| ≤ d / 2 ^ 51 := by
  have hq : 0 ≤ d / T := div_nonneg hd hT.le
  have ha : 0 ≤ fl64 (d / T) := fl64_nonneg hq
  have h1 := abs_fl64_sub_le (d / T)
  rw [abs_of_nonneg hq, abs_le] at h1
  have h2 := abs_fl64_sub_le (fl64 (d / T) * w)
  rw [abs_of_nonneg (mul_nonneg ha hw), abs_le] at h2
  have hqw : d / T * w ≤ d := by
    calc d / T * w ≤ d / T * T := mul_le_mul_of_nonneg_left hwT hq
      _ = d := div_mul_cancel₀ d hT.ne'
  have hqw0 : 0 ≤ d / T * w := mul_nonneg hq hw
  have l1 := mul_le_mul_of_nonneg_right h1.1 hw
  have l2 := mul_le_mul_of_nonneg_right h1.2 hw
  have e1 : (fl64 (d / T) - d / T) * w = fl64 (d / T) * w - d / T * w := by ring
  have e2 : d / T / 2 ^ 53 * w = d / T * w / 2 ^ 53 := by ring
  have e3 : -(d / T / 2 ^ 53) * w = -(d / T * w / 2 ^ 53) := by ring
  rw [e1, e3] at l1
  rw [e1, e2] at l2
  have hsmall : d / T * w / 2 ^ 53 ≤ d / T * w := div_le_self hqw0 (by norm_num)
  have hdiv : d / T * w / 2 ^ 53 ≤ d / 2 ^ 53 := div_le_div_of_nonneg_right hqw (by positivity)
  have haw : fl64 (d / T) * w / 2 ^ 53 ≤ 2 * (d / T * w) / 2 ^ 53 :=
    div_le_div_of_nonneg_right (by linarith) (by positivity)
  have e4 : d / 2 ^ 51 = 4 * (d / 2 ^ 53) := by ring
  have e5 : 2 * (d / T * w) / 2 ^ 53 = 2 * (d / T * w / 2 ^ 53) := by ring
  rw [abs_le, e4]
  constructor <;> linarith

/-- The integer within one half of `x`, the upper tie excluded, is `Math.round x`. -/
theorem Math.round_eq_intCast (x : ℚ) (z : Int) (h1 : (z : ℚ) - 1 / 2 ≤ x)
    (h2 : x < (z : ℚ) + 1 / 2) : Math.round x = (z : ℚ) := by
  unfold Math.round
  have : ⌊x + 1 / 2⌋ = z := by
    rw [Int.floor_eq_iff]
    constructor <;> linarith
  rw [this]

/-- The value of `Math.round` is at most half a unit above its argument. -/
theorem Math.round_le (x : ℚ) : Math.round x ≤ x + 1 / 2 := by
  unfold Math.round
  exact Int.floor_le _

/-- The value of `Math.round` is less than half a unit below its argument. -/
theorem Math.lt_round (x : ℚ) : x - 1 / 2 < Math.round x := by
  unfold Math.round
  have := Int.lt_floor_add_one (x + 1 / 2)
  linarith

/-- Arguments at most 1 apart are rounded to values at most 1 apart. -/
theorem Math.round_le_round_add_one (a b : ℚ) (h : a ≤ b + 1) :
    Math.round a ≤ Math.round b + 1 := by
  unfold Math.round
  have h1 : ⌊a + 1 / 2⌋ ≤ ⌊b + 1 / 2 + 1⌋ := Int.floor_le_floor (by linarith)
  rw [Int.floor_add_one] at h1
  exact_mod_cast h1

/-! ## Backfill -/

/-- A loop that pushes one element per round builds the image of its range. -/
theorem foldl_push_eq_map {α β : Type} (f : β → α) (l : List β) (init : List α) :
    l.foldl (fun data i => data ++ [f i]) init = init ++ l.map f := by
  induction l generalizing init with
  | nil => simp
  | cons a l ih => simp [ih]

/-- From the interval start on, the loop of `generateHistoricalData` appends one
point per elapsed minute, the minute of the instant included. -/
theorem generateHistoricalData_eq (s : SalaryCalculator) (st en now : Date)
    (hst : s.startTime = some st) (hen : s.endTime = some en)
    (hle : st.hours * 3600000 + st.minutes * 60000 ≤
      now.hours * 3600000 + now.minutes * 60000 + now.seconds * 1000) :
    generateHistoricalData s now = some { s with
      chartData := s.chartData ++
        (List.range ((now.hours * 3600000 + now.minutes * 60000 + now.seconds * 1000 -
            (st.hours * 3600000 + st.minutes * 60000)) / 60000 + 1)).map
          (historicalPoint s (st.hours * 3600000 + st.minutes * 60000)
            ((en.hours * 60 + en.minutes : Int) - (st.hours * 60 + st.minutes : Int))) } := by
  simp [generateHistoricalData, hst, hen, calculateTotalMinutes, not_lt.mpr hle,
    foldl_push_eq_map]

/-- Before the interval start `generateHistoricalData` returns at its guard. -/
theorem generateHistoricalData_before (s : SalaryCalculator) (st now : Date)
    (hst : s.startTime = some st)
    (hlt : now.hours * 3600000 + now.minutes * 60000 + now.seconds * 1000 <
      st.hours * 3600000 + st.minutes * 60000) :
    generateHistoricalData s now = some s := by
  simp [generateHistoricalData, hst, hlt]

/-- The point of round `i` in RMB: the label is the clock time `i` minutes after the
interval start, the value is the binary64 accrual product rounded to the unit. -/
theorem historicalPoint_RMB (s : SalaryCalculator) (st : Date) (total : Int) (i : Nat)
    (hunit : s.currentCurrency = Currency.RMB) :
    historicalPoint s (st.hours * 3600000 + st.minutes * 60000) total i =
      { time := timeStr ((st.hours * 60 + st.minutes + i) / 60)
          ((st.hours * 60 + st.minutes + i) % 60)
        value := Math.round (fl64 (fl64 (s.dailySalary / (total : ℚ)) * (i : ℚ)))
        minute := (i : Int) } := by
  have h1 : (st.hours * 3600000 + st.minutes * 60000 + i * 60000) / 3600000 =
      (st.hours * 60 + st.minutes + i) / 60 := by omega
  have h2 : (st.hours * 3600000 + st.minutes * 60000 + i * 60000) % 3600000 / 60000 =
      (st.hours * 60 + st.minutes + i) % 60 := by omega
  simp [historicalPoint, hunit, preciseValue, h1, h2]

/-- C1, evaluated on the code: for the session 09:00-18:00 started at 10:00:00 the
backfill leaves 61 samples, the minutes 0 to 60, in a window whose capacity
`maxDataPoints` is 50; nothing is evicted. -/
theorem backfill_exceeds_capacity :
    overflowState.chartData = [] ∧
    ∃ s, generateHistoricalData overflowState
        { hours := 10, minutes := 0, seconds := 0, milliseconds := 0 } = some s ∧
      s.maxDataPoints = 50 ∧ s.chartData.length = 61 ∧
      s.chartData.map (fun d => d.minute) = (List.range 61).map Int.ofNat := by
  refine ⟨rfl, _,
    generateHistoricalData_eq overflowState _ _ _ rfl rfl (by decide), rfl, ?_, ?_⟩
  · simp [overflowState, SalaryCalculator.new]
  · simp [overflowState, SalaryCalculator.new, historicalPoint]

/-- The code pads a number below 100 to its two decimal digits. -/
theorem padStart2_two_digits :
    ∀ n < 100, padStart2 n = String.mk [Nat.digitChar (n / 10), Nat.digitChar (n % 10)] := by
  decide

/-- The label the code builds for a minute of the day is the `HH:MM` of the spec. -/
theorem timeStr_eq_labelHHMM (k : Nat) (h : k < 1440) :
    timeStr (k / 60) (k % 60) = labelHHMM k := by
  unfold timeStr labelHHMM
  rw [padStart2_two_digits (k / 60) (by omega), padStart2_two_digits (k % 60) (by omega)]
  rfl

/-- C3 as stated fails on the values: for 550 a day over 09:00-10:00 in RMB, started at
09:27:00 (inside the interval), the last backfilled sample is minute 27 with the label
09:27 and the value 247, because the binary64 product `(550 / 60) * 27` is just below
247.5, while the rounding of the exact product 247.5 is 248. -/
theorem backfill_value_differs_from_exact_rounding :
    halfUnitState.dailySalary = 550 ∧ halfUnitState.currentCurrency = Currency.RMB ∧
    halfUnitState.chartData = [] ∧
    calculateTotalMinutes halfUnitState = some 60 ∧
    Math.round (550 / 60 * 27) = 248 ∧
    ∃ s, generateHistoricalData halfUnitState
        { hours := 9, minutes := 27, seconds := 0, milliseconds := 0 } = some s ∧
      s.chartData.length = 28 ∧
      s.chartData.getLast? = some { time := "09:27", value := 247, minute := 27 } := by
  have fa : fl64 (55 / 6) = 5160374573028693 / 2 ^ 49 := by
    rw [fl64_eq_of (55 / 6) 3 5160374573028693 (by norm_num [abs_of_pos])
      (by norm_num [abs_of_pos]) (by norm_num) (by norm_num)]
    norm_num
  have fb : fl64 (5160374573028693 / 2 ^ 49 * 27) = 8708132091985919 / 2 ^ 45 := by
    rw [fl64_eq_of (5160374573028693 / 2 ^ 49 * 27) 7 8708132091985919
      (by norm_num [abs_of_pos]) (by norm_num [abs_of_pos]) (by norm_num) (by norm_num)]
    norm_num
  have r1 : Math.round (8708132091985919 / 2 ^ 45) = 247 := by
    rw [Math.round_eq_intCast _ 247 (by norm_num) (by norm_num)]; norm_num
  have r2 : Math.round (550 / 60 * 27) = 248 := by
    rw [Math.round_eq_intCast _ 248 (by norm_num) (by norm_num)]; norm_num
  refine ⟨rfl, rfl, rfl, rfl, r2, _,
    generateHistoricalData_eq halfUnitState _ _ _ rfl rfl (by decide), ?_, ?_⟩
  · simp [halfUnitState, SalaryCalculator.new]
  · have hn : (Date.hours { hours := 9, minutes := 27, seconds := 0, milliseconds := 0 } *
          3600000 +
        Date.minutes { hours := 9, minutes := 27, seconds := 0, milliseconds := 0 } * 60000 +
        Date.seconds { hours := 9, minutes := 27, seconds := 0, milliseconds := 0 } * 1000 -
        (Date.hours { hours := 9, minutes := 0, seconds := 0, milliseconds := 0 } * 3600000 +
          Date.minutes { hours := 9, minutes := 0, seconds := 0, milliseconds := 0 } * 60000)) /
        60000 = 27 := by decide
    simp only [hn, List.range_succ, List.map_append, List.map_cons, List.map_nil,
      ← List.append_assoc, List.getLast?_concat]
    rw [historicalPoint_RMB halfUnitState
      { hours := 9, minutes := 0, seconds := 0, milliseconds := 0 } _ 27 rfl]
    have ht : timeStr ((9 * 60 + 0 + 27) / 60) ((9 * 60 + 0 + 27) % 60) = "09:27" := by
      decide
    simp only [ht]
    congr 2
    have hd : halfUnitState.dailySalary = 550 := rfl
    rw [hd]
    norm_num
    rw [fa, fb, r1]

/-- C3, amended: in RMB, on an empty window and for a valid interval, an instant from
the interval start to its end gives one sample per minute `i` from 0 to the whole
number of elapsed minutes, with `minute = i`, the label `HH:MM` of the clock time `i`
minutes after the start, and the value `Math.round` of the binary64 product
`(dailySalary / totalMinutes) * i`; for a daily salary up to `2 ^ 51` that value is
within 1 of the rounding of the exact product; within the first minute the window is
the single sample of minute 0 and value 0; an instant before the start gives the
empty window. -/
theorem generateHistoricalData_primary_samples (s : SalaryCalculator) (st en now : Date)
    (hst : s.startTime = some st) (hen : s.endTime = some en)
    (hvalid : st.hours * 60 + st.minutes < en.hours * 60 + en.minutes)
    (hrate : 0 < s.dailySalary)
    (hunit : s.currentCurrency = Currency.RMB) (hfresh : s.chartData = [])
    (hnow : now.wellFormed) :
    (st.hours * 3600000 + st.minutes * 60000 ≤ now.msOfDay →
      now.msOfDay ≤ en.hours * 3600000 + en.minutes * 60000 →
      (generateHistoricalData s now).map (fun r => r.chartData) = some
        ((List.range
          ((now.msOfDay - (st.hours * 3600000 + st.minutes * 60000)) / 60000 + 1)).map
          fun i =>
            { time := labelHHMM (st.hours * 60 + st.minutes + i)
              value := Math.round (fl64 (fl64 (s.dailySalary /
                (((en.hours * 60 + en.minutes : Int) -
                  (st.hours * 60 + st.minutes : Int) : Int) : ℚ)) * (i : ℚ)))
              minute := (i : Int) }) ∧
      (s.dailySalary ≤ 2 ^ 51 → ∀ i : Nat,
        i ≤ (now.msOfDay - (st.hours * 3600000 + st.minutes * 60000)) / 60000 →
        |Math.round (fl64 (fl64 (s.dailySalary /
            (((en.hours * 60 + en.minutes : Int) -
              (st.hours * 60 + st.minutes : Int) : Int) : ℚ)) * (i : ℚ))) -
          Math.round (s.dailySalary /
            (((en.hours * 60 + en.minutes : Int) -
              (st.hours * 60 + st.minutes : Int) : Int) : ℚ) * (i : ℚ))| ≤ 1)) ∧
    (st.hours * 3600000 + st.minutes * 60000 ≤ now.msOfDay →
      now.msOfDay < st.hours * 3600000 + st.minutes * 60000 + 60000 →
      (generateHistoricalData s now).map (fun r => r.chartData) = some
        [{ time := labelHHMM (st.hours * 60 + st.minutes)
           value := 0
           minute := 0 }]) ∧
    (now.msOfDay < st.hours * 3600000 + st.minutes * 60000 →
      (generateHistoricalData s now).map (fun r => r.chartData) = some []) := by
  obtain ⟨hh, hm, hsec, hms⟩ := hnow
  have hday : now.msOfDay < 86400000 := by unfold Date.msOfDay; omega
  refine ⟨?_, ?_, ?_⟩
  · intro h1 h2
    have hle : st.hours * 3600000 + st.minutes * 60000 ≤
        now.hours * 3600000 + now.minutes * 60000 + now.seconds * 1000 := by
      unfold Date.msOfDay at h1; omega
    have hq : (now.hours * 3600000 + now.minutes * 60000 + now.seconds * 1000 -
        (st.hours * 3600000 + st.minutes * 60000)) / 60000 =
        (now.msOfDay - (st.hours * 3600000 + st.minutes * 60000)) / 60000 := by
      unfold Date.msOfDay; omega
    constructor
    · rw [generateHistoricalData_eq s st en now hst hen hle, hq]
      simp only [Option.map_some', hfresh, List.nil_append]
      congr 1
      apply List.map_congr_left
      intro i hi
      have hi' := List.mem_range.mp hi
      rw [historicalPoint_RMB s st _ i hunit,
        timeStr_eq_labelHHMM (st.hours * 60 + st.minutes + i) (by omega)]
    · intro hcap i hi
      have hT : (0 : ℚ) < (((en.hours * 60 + en.minutes : Int) -
          (st.hours * 60 + st.minutes : Int) : Int) : ℚ) := by
        have : (0 : Int) < (en.hours * 60 + en.minutes : Int) -
            (st.hours * 60 + st.minutes : Int) := by omega
        exact_mod_cast this
      have hiT : (i : ℚ) ≤ (((en.hours * 60 + en.minutes : Int) -
          (st.hours * 60 + st.minutes : Int) : Int) : ℚ) := by
        have : (i : Int) ≤ (en.hours * 60 + en.minutes : Int) -
            (st.hours * 60 + st.minutes : Int) := by omega
        exact_mod_cast this
      have hclose := fl64_accrual_close s.dailySalary _ (i : ℚ) hrate.le hT
        (by positivity) hiT
      have hone : s.dailySalary / 2 ^ 51 ≤ 1 := by
        rw [div_le_one (by positivity)]; exact hcap
      rw [abs_le] at hclose
      generalize fl64 (fl64 (s.dailySalary / _) * (i : ℚ)) = machineValue at hclose ⊢
      generalize s.dailySalary / _ * (i : ℚ) = exactValue at hclose ⊢
      generalize s.dailySalary / 2 ^ 51 = gap at hclose hone
      have u1 := Math.round_le_round_add_one machineValue exactValue (by linarith)
      have u2 := Math.round_le_round_add_one exactValue machineValue (by linarith)
      rw [abs_le]
      constructor <;> linarith
  · intro h1 h2
    have hle : st.hours * 3600000 + st.minutes * 60000 ≤
        now.hours * 3600000 + now.minutes * 60000 + now.seconds * 1000 := by
      unfold Date.msOfDay at h1; omega
    have hq : (now.hours * 3600000 + now.minutes * 60000 + now.seconds * 1000 -
        (st.hours * 3600000 + st.minutes * 60000)) / 60000 = 0 := by
      unfold Date.msOfDay at h2; omega
    rw [generateHistoricalData_eq s st en now hst hen hle, hq]
    have hr : List.range (0 + 1) = [0] := rfl
    have hl := timeStr_eq_labelHHMM (st.hours * 60 + st.minutes + 0) (by omega)
    simp only [Nat.add_zero] at hl
    simp [hfresh, hr, historicalPoint_RMB s st _ 0 hunit, Math.round, fl64_zero, hl]
    norm_num
  · intro h
    have hlt : now.hours * 3600000 + now.minutes * 60000 + now.seconds * 1000 <
        st.hours * 3600000 + st.minutes * 60000 := by
      unfold Date.msOfDay at h; omega
    rw [generateHistoricalData_before s st now hst hlt]
    simp [hfresh]

/-- C3 at scenario C: 600 a day over 09:00-14:00 (300 minutes), started at 09:30:00,
gives 31 samples, the first `09:00` with value 0 at minute 0, the last `09:30` with
value 60 at minute 30, each with value `2 * minute`. -/
theorem generateHistoricalData_primary_samples_witness :
    ∃ l, (generateHistoricalData scenarioC
        { hours := 9, minutes := 30, seconds := 0, milliseconds := 0 }).map
        (fun r => r.chartData) = some l ∧
      l.length = 31 ∧
      l.head? = some { time := "09:00", value := 0, minute := 0 } ∧
      l.getLast? = some { time := "09:30", value := 60, minute := 30 } ∧
      ∀ d ∈ l, d.value = 2 * (d.minute : ℚ) := by
  have h := ((generateHistoricalData_primary_samples scenarioC
    { hours := 9, minutes := 0, seconds := 0, milliseconds := 0 }
    { hours := 14, minutes := 0, seconds := 0, milliseconds := 0 }
    { hours := 9, minutes := 30, seconds := 0, milliseconds := 0 }
    rfl rfl (by decide) (by norm_num [scenarioC, SalaryCalculator.new]) rfl rfl
    (by decide)).1 (by decide) (by decide)).1
  have hn : (Date.msOfDay { hours := 9, minutes := 30, seconds := 0, milliseconds := 0 } -
      (Date.hours { hours := 9, minutes := 0, seconds := 0, milliseconds := 0 } * 3600000 +
        Date.minutes { hours := 9, minutes := 0, seconds := 0, milliseconds := 0 } * 60000)) /
      60000 + 1 = 31 := by decide
  rw [hn] at h
  have f2 : fl64 2 = 2 := by simpa using fl64_natCast 2 (by norm_num)
  have hval : ∀ i : Nat, i < 31 →
      Math.round (fl64 (fl64 (scenarioC.dailySalary /
        (((Date.hours { hours := 14, minutes := 0, seconds := 0, milliseconds := 0 } * 60 +
          Date.minutes { hours := 14, minutes := 0, seconds := 0, milliseconds := 0 } : Int) -
          (Date.hours { hours := 9, minutes := 0, seconds := 0, milliseconds := 0 } * 60 +
          Date.minutes { hours := 9, minutes := 0, seconds := 0, milliseconds := 0 } : Int)
            : Int) : ℚ)) * (i : ℚ))) = 2 * (i : ℚ) := by
    intro i hi
    have hq : scenarioC.dailySalary /
        (((Date.hours { hours := 14, minutes := 0, seconds := 0, milliseconds := 0 } * 60 +
          Date.minutes { hours := 14, minutes := 0, seconds := 0, milliseconds := 0 } : Int) -
          (Date.hours { hours := 9, minutes := 0, seconds := 0, milliseconds := 0 } * 60 +
          Date.minutes { hours := 9, minutes := 0, seconds := 0, milliseconds := 0 } : Int)
            : Int) : ℚ) = 2 := by
      norm_num [scenarioC, SalaryCalculator.new]
    have hp : fl64 (2 * (i : ℚ)) = 2 * (i : ℚ) := by
      have := fl64_natCast (2 * i) (by omega)
      push_cast at this
      exact this
    rw [hq, f2, hp]
    have := Math.round_eq_intCast (2 * (i : ℚ)) (2 * (i : Int)) (by push_cast; linarith)
      (by push_cast; linarith)
    rw [this]; push_cast; rfl
  refine ⟨_, h, by simp, ?_, ?_, ?_⟩
  · have h0 := hval 0 (by norm_num)
    simp only [Nat.cast_zero, mul_zero] at h0
    have hl : labelHHMM (9 * 60 + 0 + 0) = "09:00" := by decide
    simp [List.range_succ_eq_map, h0, hl]
  · have h30 := hval 30 (by norm_num)
    have hl : labelHHMM
        (Date.hours { hours := 9, minutes := 0, seconds := 0, milliseconds := 0 } * 60 +
          Date.minutes { hours := 9, minutes := 0, seconds := 0, milliseconds := 0 } + 30) =
        "09:30" := by decide
    rw [List.range_succ, List.map_append, List.map_cons, List.map_nil,
      List.getLast?_concat, h30, hl]
    norm_num
  · intro d hd
    obtain ⟨i, hi, rfl⟩ := List.mem_map.mp hd
    simp only
    rw [hval i (List.mem_range.mp hi)]
    push_cast
    rfl

/-- C4, evaluated on the code: for the session 09:00-10:00 at 60 a day in RMB, started
at 11:00:00, the backfill holds the sample of minute 120 with value 120, twice the
daily salary, while `calculateCurrentEarnings` at that instant is 60. -/
theorem backfill_after_end_exceeds_dailySalary :
    afterEndState.dailySalary = 60 ∧ afterEndState.currentCurrency = Currency.RMB ∧
    calculateCurrentEarnings afterEndState
      { hours := 11, minutes := 0, seconds := 0, milliseconds := 0 } = some 60 ∧
    ∃ s, generateHistoricalData afterEndState
        { hours := 11, minutes := 0, seconds := 0, milliseconds := 0 } = some s ∧
      ({ time := "11:00", value := 120, minute := 120 } : DataPoint) ∈ s.chartData := by
  have f1 : fl64 1 = 1 := by simpa using fl64_natCast 1 (by norm_num)
  have f60 : fl64 60 = 60 := by simpa using fl64_natCast 60 (by norm_num)
  have f120 : fl64 120 = 120 := by simpa using fl64_natCast 120 (by norm_num)
  refine ⟨rfl, rfl, ?_, _,
    generateHistoricalData_eq afterEndState _ _ _ rfl rfl (by decide), ?_⟩
  · simp [calculateCurrentEarnings, calculateWorkedMinutes, calculateTotalMinutes,
      afterEndState, SalaryCalculator.new]
    norm_num [f1, f60]
  · apply List.mem_append_right
    refine List.mem_map.mpr ⟨120, List.mem_range.mpr (by decide), ?_⟩
    refine (historicalPoint_RMB afterEndState
      { hours := 9, minutes := 0, seconds := 0, milliseconds := 0 } _ 120 rfl).trans ?_
    have ht : timeStr ((9 * 60 + 0 + 120) / 60) ((9 * 60 + 0 + 120) % 60) = "11:00" := by
      decide
    simp only [ht]
    congr 1
    norm_num [afterEndState, SalaryCalculator.new, Math.round, f1, f120, Int.floor_eq_iff]

/-! ## Accrual -/

/-- For a valid interval the worked minutes are the binary64 value of the instant
clamped to the interval and measured from its start. -/
theorem calculateWorkedMinutes_eq (s : SalaryCalculator) (st en now : Date)
    (hst : s.startTime = some st) (hen : s.endTime = some en)
    (hvalid : st.hours * 60 + st.minutes < en.hours * 60 + en.minutes) :
    calculateWorkedMinutes s now = some (fl64
      ((((min (max now.msOfDay (st.hours * 3600000 + st.minutes * 60000))
          (en.hours * 3600000 + en.minutes * 60000) : Nat) : ℚ) -
        ((st.hours * 3600000 + st.minutes * 60000 : Nat) : ℚ)) / 60000)) := by
  simp only [calculateWorkedMinutes, hst, hen, Date.msOfDay]
  split_ifs with h1 h2
  · rw [max_eq_right (by omega), min_eq_left (by omega)]; simp [fl64_zero]
  · rw [max_eq_left (by omega), min_eq_right (by omega)]
  · rw [max_eq_left (by omega), min_eq_left (by omega)]

/-- For a valid interval the earnings are the binary64 accrual at the clamped
instant. -/
theorem calculateCurrentEarnings_eq (s : SalaryCalculator) (st en now : Date)
    (hst : s.startTime = some st) (hen : s.endTime = some en)
    (hvalid : st.hours * 60 + st.minutes < en.hours * 60 + en.minutes) :
    calculateCurrentEarnings s now = some (max 0
      (fl64 (fl64 (s.dailySalary /
          (((en.hours * 60 + en.minutes : Nat) : ℚ) - ((st.hours * 60 + st.minutes : Nat) : ℚ))) *
        fl64 ((((min (max now.msOfDay (st.hours * 3600000 + st.minutes * 60000))
            (en.hours * 3600000 + en.minutes * 60000) : Nat) : ℚ) -
          ((st.hours * 3600000 + st.minutes * 60000 : Nat) : ℚ)) / 60000)))) := by
  have hpos : ¬ ((en.hours * 60 + en.minutes : Int) - (st.hours * 60 + st.minutes : Int) ≤ 0) := by
    omega
  simp only [calculateCurrentEarnings, calculateWorkedMinutes_eq s st en now hst hen hvalid,
    calculateTotalMinutes, hst, hen, hpos, if_false]
  push_cast
  rfl

/-- C5 as stated fails at the interval end: for 800 a day over 09:00-09:11 the earnings
at 09:11:00 are the binary64 product `(800 / 11) * 11`, which is `800 + 2 ^ (-43)`
(printed 800.0000000000001), not 800. -/
theorem earnings_at_end_differ_from_dailySalary :
    elevenMinuteState.dailySalary = 800 ∧
    calculateTotalMinutes elevenMinuteState = some 11 ∧
    calculateCurrentEarnings elevenMinuteState
      { hours := 9, minutes := 11, seconds := 0, milliseconds := 0 } =
        some (800 + 1 / 2 ^ 43) ∧
    calculateCurrentEarnings elevenMinuteState
      { hours := 9, minutes := 11, seconds := 0, milliseconds := 0 } ≠ some 800 := by
  have f11 : fl64 11 = 11 := by simpa using fl64_natCast 11 (by norm_num)
  have fa : fl64 (800 / 11) = 5117726849284655 / 2 ^ 46 := by
    rw [fl64_eq_of (800 / 11) 6 5117726849284655 (by norm_num [abs_of_pos])
      (by norm_num [abs_of_pos]) (by norm_num) (by norm_num)]
    norm_num
  have fb : fl64 (5117726849284655 / 2 ^ 46 * 11) = 7036874417766401 / 2 ^ 43 := by
    rw [fl64_eq_of (5117726849284655 / 2 ^ 46 * 11) 9 7036874417766401
      (by norm_num [abs_of_pos]) (by norm_num [abs_of_pos]) (by norm_num) (by norm_num)]
    norm_num
  have hval : calculateCurrentEarnings elevenMinuteState
      { hours := 9, minutes := 11, seconds := 0, milliseconds := 0 } =
        some (800 + 1 / 2 ^ 43) := by
    simp [calculateCurrentEarnings, calculateWorkedMinutes, calculateTotalMinutes,
      elevenMinuteState, SalaryCalculator.new]
    norm_num
    rw [f11, fa, fb]
    norm_num
  refine ⟨rfl, rfl, hval, ?_⟩
  rw [hval]
  norm_num

/-- C5, amended: for a valid interval of the day and a positive daily salary,
`calculateCurrentEarnings` returns at every instant, is non-decreasing in the instant
of the day, is 0 at and before the interval start, and at and after the interval end
is one value, the binary64 product `(dailySalary / totalMinutes) * totalMinutes`, which
is within `dailySalary / 2 ^ 51` of the daily salary. -/
theorem calculateCurrentEarnings_monotone (s : SalaryCalculator) (st en : Date)
    (hst : s.startTime = some st) (hen : s.endTime = some en)
    (hvalid : st.hours * 60 + st.minutes < en.hours * 60 + en.minutes)
    (hday : en.wellFormed)
    (hrate : 0 < s.dailySalary) :
    (∀ now1 now2 : Date, now1.msOfDay ≤ now2.msOfDay →
      ∃ e1 e2, calculateCurrentEarnings s now1 = some e1 ∧
        calculateCurrentEarnings s now2 = some e2 ∧ e1 ≤ e2) ∧
    (∀ now : Date, now.msOfDay ≤ st.hours * 3600000 + st.minutes * 60000 →
      calculateCurrentEarnings s now = some 0) ∧
    (∀ now : Date, en.hours * 3600000 + en.minutes * 60000 ≤ now.msOfDay →
      calculateCurrentEarnings s now = some (fl64 (fl64 (s.dailySalary /
          (((en.hours * 60 + en.minutes : Nat) : ℚ) - ((st.hours * 60 + st.minutes : Nat) : ℚ))) *
        (((en.hours * 60 + en.minutes : Nat) : ℚ) - ((st.hours * 60 + st.minutes : Nat) : ℚ))))) ∧
    |fl64 (fl64 (s.dailySalary /
          (((en.hours * 60 + en.minutes : Nat) : ℚ) - ((st.hours * 60 + st.minutes : Nat) : ℚ))) *
        (((en.hours * 60 + en.minutes : Nat) : ℚ) - ((st.hours * 60 + st.minutes : Nat) : ℚ))) -
      s.dailySalary| ≤ s.dailySalary / 2 ^ 51 := by
  have htot : (0 : ℚ) < ((en.hours * 60 + en.minutes : Nat) : ℚ) -
      ((st.hours * 60 + st.minutes : Nat) : ℚ) := by
    have : ((st.hours * 60 + st.minutes : Nat) : ℚ) < ((en.hours * 60 + en.minutes : Nat) : ℚ) := by
      exact_mod_cast hvalid
    linarith
  have hc : (0 : ℚ) ≤ fl64 (s.dailySalary / (((en.hours * 60 + en.minutes : Nat) : ℚ) -
      ((st.hours * 60 + st.minutes : Nat) : ℚ))) := fl64_nonneg (div_pos hrate htot).le
  refine ⟨?_, ?_, ?_, ?_⟩
  · intro now1 now2 h
    refine ⟨_, _, calculateCurrentEarnings_eq s st en now1 hst hen hvalid,
      calculateCurrentEarnings_eq s st en now2 hst hen hvalid, ?_⟩
    have hw : ∀ now : Date, (0 : ℚ) ≤
        (((min (max now.msOfDay (st.hours * 3600000 + st.minutes * 60000))
            (en.hours * 3600000 + en.minutes * 60000) : Nat) : ℚ) -
          ((st.hours * 3600000 + st.minutes * 60000 : Nat) : ℚ)) / 60000 := by
      intro now
      apply div_nonneg _ (by norm_num)
      rw [sub_nonneg]
      have : st.hours * 3600000 + st.minutes * 60000 ≤
          min (max now.msOfDay (st.hours * 3600000 + st.minutes * 60000))
            (en.hours * 3600000 + en.minutes * 60000) :=
        le_min (le_max_right _ _) (by omega)
      exact_mod_cast this
    apply max_le_max le_rfl
    apply fl64_mono (mul_nonneg hc (fl64_nonneg (hw now1)))
    apply mul_le_mul_of_nonneg_left _ hc
    apply fl64_mono (hw now1)
    apply div_le_div_of_nonneg_right _ (by norm_num)
    apply sub_le_sub_right
    exact_mod_cast min_le_min (max_le_max h le_rfl) le_rfl
  · intro now h
    have h0 : st.hours * 3600000 + st.minutes * 60000 ≤
        en.hours * 3600000 + en.minutes * 60000 := by omega
    rw [calculateCurrentEarnings_eq s st en now hst hen hvalid, max_eq_right h,
      min_eq_left h0]
    simp [fl64_zero]
  · intro now h
    have h0 : st.hours * 3600000 + st.minutes * 60000 ≤ now.msOfDay := by omega
    rw [calculateCurrentEarnings_eq s st en now hst hen hvalid, max_eq_left h0,
      min_eq_right h]
    obtain ⟨hh, hm, -, -⟩ := hday
    have e : (((en.hours * 3600000 + en.minutes * 60000 : Nat) : ℚ) -
        ((st.hours * 3600000 + st.minutes * 60000 : Nat) : ℚ)) / 60000 =
        ((en.hours * 60 + en.minutes - (st.hours * 60 + st.minutes) : Nat) : ℚ) := by
      rw [Nat.cast_sub hvalid.le]
      push_cast; ring
    have e' : ((en.hours * 60 + en.minutes : Nat) : ℚ) - ((st.hours * 60 + st.minutes : Nat) : ℚ) =
        ((en.hours * 60 + en.minutes - (st.hours * 60 + st.minutes) : Nat) : ℚ) := by
      rw [Nat.cast_sub hvalid.le]
    rw [e, e', fl64_natCast _ (by omega), max_eq_right]
    rw [← e']
    exact fl64_nonneg (mul_nonneg hc htot.le)
  · have h := fl64_accrual_close s.dailySalary _ _ hrate.le htot htot.le le_rfl
    rwa [div_mul_cancel₀ _ htot.ne'] at h

/-- C5 at 09:00-18:00 and 800 a day: at 20:15 the earnings are the binary64 product
`(800 / 540) * 540`, which is 800. -/
theorem calculateCurrentEarnings_monotone_witness :
    calculateCurrentEarnings overflowState
      { hours := 20, minutes := 15, seconds := 0, milliseconds := 0 } = some 800 := by
  have h := (calculateCurrentEarnings_monotone overflowState
    { hours := 9, minutes := 0, seconds := 0, milliseconds := 0 }
    { hours := 18, minutes := 0, seconds := 0, milliseconds := 0 }
    rfl rfl (by decide) (by decide)
    (by norm_num [overflowState, SalaryCalculator.new])).2.2.1
    { hours := 20, minutes := 15, seconds := 0, milliseconds := 0 } (by decide)
  have fa : fl64 (40 / 27) = 6671999447956290 / 2 ^ 52 := by
    rw [fl64_eq_of (40 / 27) 0 6671999447956290 (by norm_num [abs_of_pos])
      (by norm_num [abs_of_pos]) (by norm_num) (by norm_num)]
    norm_num
  have fb : fl64 (6671999447956290 / 2 ^ 52 * 540) = 800 := by
    rw [fl64_eq_of (6671999447956290 / 2 ^ 52 * 540) 9 7036874417766400
      (by norm_num [abs_of_pos]) (by norm_num [abs_of_pos]) (by norm_num) (by norm_num)]
    norm_num
  rw [h]
  have hd : overflowState.dailySalary = 800 := rfl
  rw [hd]
  norm_num
  rw [fa, fb]

/-! ## Currency conversion -/

/-- A value converted to USD and multiplied back is within a twentieth of the rate. -/
theorem toUSD_mul_rate_close (r x : ℚ) (hr : 0 < r) :
    |toUSD r x * r - x| ≤ r / 20 := by
  have h1 := Math.round_le (x / r * 10)
  have h2 := Math.lt_round (x / r * 10)
  have hx : x / r * r = x := div_mul_cancel₀ x hr.ne'
  unfold toUSD
  rw [abs_le]
  constructor
  · have := mul_le_mul_of_nonneg_right h2.le hr.le
    nlinarith
  · have := mul_le_mul_of_nonneg_right h1 hr.le
    nlinarith

/-- C6 as stated fails: at the rate 100 the value 4 goes to 0.0 USD and back to 0,
which is 4 away from `Math.round 4`. -/
theorem round_trip_exceeds_one :
    ¬ ∀ x r : ℚ, 0 ≤ x → 0 < r → |toRMB r (toUSD r x) - Math.round x| ≤ 1 := by
  intro h
  have h1 := h 4 100 (by norm_num) (by norm_num)
  have e1 : toUSD 100 4 = 0 := by
    unfold toUSD
    rw [Math.round_eq_intCast _ 0 (by norm_num) (by norm_num)]
    norm_num
  have e2 : toRMB 100 0 = 0 := by
    unfold toRMB
    rw [Math.round_eq_intCast _ 0 (by norm_num) (by norm_num)]
    norm_num
  have e3 : Math.round 4 = 4 := by
    rw [Math.round_eq_intCast _ 4 (by norm_num) (by norm_num)]
    norm_num
  rw [e1, e2, e3] at h1
  norm_num at h1

/-- C6, amended: for every `x ≥ 0` and every rate `0 < r ≤ 20` (the program's rate
is 7), RMB to USD and back differs from `Math.round x` by at most 1. -/
theorem round_trip_within_one (x r : ℚ) (hx : 0 ≤ x) (hr : 0 < r) (hr20 : r ≤ 20) :
    |toRMB r (toUSD r x) - Math.round x| ≤ 1 := by
  have hc := toUSD_mul_rate_close r x hr
  rw [abs_le] at hc
  unfold toRMB
  rw [abs_le]
  constructor
  · have := Math.round_le_round_add_one x (toUSD r x * r) (by linarith)
    linarith
  · have := Math.round_le_round_add_one (toUSD r x * r) x (by linarith)
    linarith

/-- C6 at the rate 7 and the value 400. -/
theorem round_trip_within_one_witness :
    |toRMB 7 (toUSD 7 400) - Math.round 400| ≤ 1 :=
  round_trip_within_one 400 7 (by norm_num) (by norm_num) (by norm_num)

/-- At the rate 7 a whole amount survives the way to USD and back. -/
theorem toRMB_toUSD_seven (n : Nat) : toRMB 7 (toUSD 7 (n : ℚ)) = (n : ℚ) := by
  have h1 := Math.round_le ((n : ℚ) / 7 * 10)
  have h2 := Math.lt_round ((n : ℚ) / 7 * 10)
  unfold toRMB toUSD
  have h := Math.round_eq_intCast (Math.round ((n : ℚ) / 7 * 10) / 10 * 7) (n : Int)
    (by push_cast; linarith) (by push_cast; linarith)
  rw [h]
  push_cast
  rfl

/-- On a window of whole RMB amounts at the rate 7, the conversion of lines 270-297
applied twice gives the state back. -/
theorem convertChartData_twice (s : SalaryCalculator)
    (hunit : s.currentCurrency = Currency.RMB) (hrate : s.exchangeRate = 7)
    (hwhole : ∀ d ∈ s.chartData, ∃ n : Nat, d.value = (n : ℚ)) :
    convertChartData (convertChartData s) = s := by
  obtain ⟨ds, st, en, uf, run, cur, rate, data, cap⟩ := s
  simp only at hunit hrate hwhole
  subst hunit hrate
  simp only [convertChartData, List.map_map]
  congr 1
  conv_rhs => rw [← List.map_id data]
  apply List.map_congr_left
  intro d hd
  obtain ⟨n, hn⟩ := hwhole d hd
  obtain ⟨t, v, m⟩ := d
  simp only at hn
  subst hn
  simp [toRMB_toUSD_seven]

/-- C7 as stated fails in a running session: the session started at 09:00:30 holds the
whole RMB value 5 at minute 0; toggled to USD and back at 09:00:45 it holds 8, because
each toggle of a running session also runs `updateDisplay`. -/
theorem toggleCurrency_twice_running_changes_window :
    start SalaryCalculator.new tickingRequest
      { hours := 9, minutes := 0, seconds := 30, milliseconds := 0 } = some tickingState ∧
    tickingState.currentCurrency = Currency.RMB ∧ tickingState.exchangeRate = 7 ∧
    tickingState.chartData = [{ time := "09:00", value := 5, minute := 0 }] ∧
    (toggleCurrency tickingState
        { hours := 9, minutes := 0, seconds := 45, milliseconds := 0 }).bind
      (fun t => toggleCurrency t
        { hours := 9, minutes := 0, seconds := 45, milliseconds := 0 }) =
      some { tickingState with chartData := [{ time := "09:00", value := 8, minute := 0 }] } := by
  have r1 : Math.round 0 = 0 := by
    rw [Math.round_eq_intCast 0 0 (by norm_num) (by norm_num)]; norm_num
  have r2 : Math.round 5 = 5 := by
    rw [Math.round_eq_intCast 5 5 (by norm_num) (by norm_num)]; norm_num
  have r3 : Math.round (50 / 7) = 7 := by
    rw [Math.round_eq_intCast (50 / 7) 7 (by norm_num) (by norm_num)]; norm_num
  have r4 : Math.round (75 / 7) = 11 := by
    rw [Math.round_eq_intCast (75 / 7) 11 (by norm_num) (by norm_num)]; norm_num
  have r5 : Math.round (77 / 10) = 8 := by
    rw [Math.round_eq_intCast (77 / 10) 8 (by norm_num) (by norm_num)]; norm_num
  have r6 : Math.round (15 / 2) = 8 := by
    rw [Math.round_eq_intCast (15 / 2) 8 (by norm_num) (by norm_num)]; norm_num
  have ht : timeStr 9 0 = "09:00" := by decide
  have hr : List.range 1 = [0] := rfl
  have f10 : fl64 10 = 10 := by simpa using fl64_natCast 10 (by norm_num)
  have f5 : fl64 5 = 5 := by simpa using fl64_natCast 5 (by norm_num)
  have fh : fl64 (1 / 2) = 1 / 2 := by
    rw [fl64_eq_of (1 / 2) (-1) (2 ^ 52) (by norm_num [abs_of_pos])
      (by norm_num [abs_of_pos]) (by norm_num) (by norm_num)]
    norm_num
  have fq : fl64 (3 / 4) = 3 / 4 := by
    rw [fl64_eq_of (3 / 4) (-1) (3 * 2 ^ 51) (by norm_num [abs_of_pos])
      (by norm_num [abs_of_pos]) (by norm_num) (by norm_num)]
    norm_num
  have f75 : fl64 (15 / 2) = 15 / 2 := by
    rw [fl64_eq_of (15 / 2) 2 (15 * 2 ^ 49) (by norm_num [abs_of_pos])
      (by norm_num [abs_of_pos]) (by norm_num) (by norm_num)]
    norm_num
  refine ⟨?_, rfl, rfl, rfl, ?_⟩
  · simp [start, tickingRequest, tickingState, SalaryCalculator.new, orZero,
      orDefaultFrequency, parseTime, Date.msOfDay, generateHistoricalData,
      calculateTotalMinutes, historicalPoint, preciseValue, updateDisplay,
      calculateCurrentEarnings, calculateWorkedMinutes, updateChartData, hr, r1, r2, ht]
    norm_num [r1, r2, ht, f10, fh, f5]
  · simp [toggleCurrency, convertChartData, tickingState, SalaryCalculator.new,
      updateDisplay, calculateCurrentEarnings, calculateWorkedMinutes,
      calculateTotalMinutes, updateChartData, preciseValue, toUSD, toRMB]
    norm_num [r3, r4, r5, r6, f10, fq, f75]
/-- C7, amended: at the rate 7, on a window of non-negative whole RMB amounts, the
conversion that the two toggles perform (lines 270-297, twice) gives back every
sample, its `time`, `minute` and `value`, in the same order; in a session that is not
running this is all the two toggles do, whatever the instants. -/
theorem toggleCurrency_twice_restores (s : SalaryCalculator) (now1 now2 : Date)
    (hunit : s.currentCurrency = Currency.RMB) (hrate : s.exchangeRate = 7)
    (hwhole : ∀ d ∈ s.chartData, ∃ n : Nat, d.value = (n : ℚ)) :
    (convertChartData (convertChartData s)).chartData = s.chartData ∧
    (s.isRunning = false →
      (toggleCurrency s now1).bind (fun t => toggleCurrency t now2) = some s) := by
  have h2 := convertChartData_twice s hunit hrate hwhole
  refine ⟨by rw [h2], ?_⟩
  intro hrun
  have hrun1 : (convertChartData s).isRunning = false := by
    simp [convertChartData, hunit, hrun]
  simp [toggleCurrency, hrun1, h2, hrun]

/-- C7 at the stopped session holding 400 at 13:30: the first toggle stores 57.1, the
second gives the state back. -/
theorem toggleCurrency_twice_restores_witness :
    (convertChartData stoppedState).chartData =
      [{ time := "13:30", value := 571 / 10, minute := 270 }] ∧
    (toggleCurrency stoppedState
        { hours := 19, minutes := 0, seconds := 0, milliseconds := 0 }).bind
      (fun t => toggleCurrency t
        { hours := 19, minutes := 5, seconds := 0, milliseconds := 0 }) =
      some stoppedState := by
  refine ⟨?_, (toggleCurrency_twice_restores stoppedState _ _ rfl rfl ?_).2 rfl⟩
  · have r : Math.round (4000 / 7) = 571 := by
      rw [Math.round_eq_intCast (4000 / 7) 571 (by norm_num) (by norm_num)]; norm_num
    simp [convertChartData, stoppedState, SalaryCalculator.new, toUSD]
    norm_num [r]
  · intro d hd
    simp only [stoppedState, SalaryCalculator.new, List.mem_singleton] at hd
    subst hd
    exact ⟨400, by norm_num⟩

/-! ## Ticks within one minute -/

/-- C8: on a window whose last sample is `last`, a tick whose minute is not after
`last.minute` returns, keeps every sample but the last and the length, and replaces
the last sample by itself with the value rounded for the active currency; a second
such tick leaves only its own value there. -/
theorem updateChartData_same_minute (s : SalaryCalculator) (st : Date) (last : DataPoint)
    (now1 now2 : Date) (value1 value2 : ℚ)
    (hst : s.startTime = some st) (hlast : s.chartData.getLast? = some last)
    (h1 : (((now1.hours * 3600000 + now1.minutes * 60000 : Nat) : Int) -
      ((st.hours * 3600000 + st.minutes * 60000 : Nat) : Int)) / 60000 ≤ last.minute)
    (h2 : (((now2.hours * 3600000 + now2.minutes * 60000 : Nat) : Int) -
      ((st.hours * 3600000 + st.minutes * 60000 : Nat) : Int)) / 60000 ≤ last.minute) :
    updateChartData s now1 value1 = some { s with
      chartData := s.chartData.dropLast ++
        [{ time := last.time, value := preciseValue s.currentCurrency value1,
           minute := last.minute }] } ∧
    (s.chartData.dropLast ++
        [({ time := last.time, value := preciseValue s.currentCurrency value1,
            minute := last.minute } : DataPoint)]).length = s.chartData.length ∧
    (updateChartData s now1 value1).bind (fun t => updateChartData t now2 value2) =
      some { s with
        chartData := s.chartData.dropLast ++
          [{ time := last.time, value := preciseValue s.currentCurrency value2,
             minute := last.minute }] } := by
  have key : ∀ (t : SalaryCalculator) (now : Date) (v : ℚ) (l : DataPoint),
      t.startTime = some st → t.chartData.getLast? = some l →
      (((now.hours * 3600000 + now.minutes * 60000 : Nat) : Int) -
        ((st.hours * 3600000 + st.minutes * 60000 : Nat) : Int)) / 60000 ≤ l.minute →
      updateChartData t now v = some { t with
        chartData := t.chartData.dropLast ++
          [{ time := l.time, value := preciseValue t.currentCurrency v,
             minute := l.minute }] } := by
    intro t now v l ht hl hle
    simp only [updateChartData, ht, hl]
    rw [if_neg (not_lt.mpr hle)]
  have e1 := key s now1 value1 last hst hlast h1
  refine ⟨e1, ?_, ?_⟩
  · have hne : s.chartData ≠ [] := by
      intro h; rw [h] at hlast; simp at hlast
    simp [List.length_dropLast]
    have := List.length_pos.mpr hne
    omega
  · rw [e1, Option.some_bind]
    have e2 := key
      { s with chartData := s.chartData.dropLast ++
          [⟨last.time, preciseValue s.currentCurrency value1, last.minute⟩] }
      now2 value2 ⟨last.time, preciseValue s.currentCurrency value1, last.minute⟩
      hst (by simp) h2
    rw [e2]
    simp
/-- C8 at the running session holding 5 at minute 0: two ticks at 09:00:40 and
09:00:50 leave the single sample of minute 0 with the second value, rounded. -/
theorem updateChartData_same_minute_witness :
    (updateChartData tickingState
        { hours := 9, minutes := 0, seconds := 40, milliseconds := 0 } (20 / 3)).bind
      (fun t => updateChartData t
        { hours := 9, minutes := 0, seconds := 50, milliseconds := 0 } (25 / 3)) =
      some { tickingState with
        chartData := [{ time := "09:00", value := 8, minute := 0 }] } := by
  have h := (updateChartData_same_minute tickingState
    { hours := 9, minutes := 0, seconds := 0, milliseconds := 0 }
    { time := "09:00", value := 5, minute := 0 }
    { hours := 9, minutes := 0, seconds := 40, milliseconds := 0 }
    { hours := 9, minutes := 0, seconds := 50, milliseconds := 0 }
    (20 / 3) (25 / 3) rfl rfl (by decide) (by decide)).2.2
  rw [h]
  have r : Math.round (25 / 3) = 8 := by
    rw [Math.round_eq_intCast (25 / 3) 8 (by norm_num) (by norm_num)]; norm_num
  simp [tickingState, SalaryCalculator.new, preciseValue, r]

/-! ## Rejected start requests -/

/-- C9 as stated fails: the stopped session of 09:00-18:00 at 800 a day, asked to
start with 100 a day from 10:00 to 09:00, is not started, yet afterwards it stores
the daily salary 100, the period 1000 and the interval 10:00-09:00. -/
theorem start_rejected_overwrites_configuration :
    start stoppedState invertedRequest
        { hours := 19, minutes := 0, seconds := 0, milliseconds := 0 } =
      some { stoppedState with
        dailySalary := 100
        updateFrequency := 1000
        startTime := some { hours := 10, minutes := 0, seconds := 0, milliseconds := 0 }
        endTime := some { hours := 9, minutes := 0, seconds := 0, milliseconds := 0 } } ∧
    stoppedState.dailySalary = 800 ∧ stoppedState.updateFrequency = 500 ∧
    stoppedState.startTime =
      some { hours := 9, minutes := 0, seconds := 0, milliseconds := 0 } ∧
    stoppedState.endTime =
      some { hours := 18, minutes := 0, seconds := 0, milliseconds := 0 } := by
  refine ⟨?_, rfl, rfl, rfl, rfl⟩
  simp [start, stoppedState, invertedRequest, SalaryCalculator.new, orZero,
    orDefaultFrequency, parseTime, Date.msOfDay]

/-- C9, amended: a request with a missing time, a daily salary that is not positive
or an end time not after the start time makes `start` return without starting: the
running flag, the sample window, the currency, the rate and the capacity are as
before; the daily salary and the period are the parsed values of the request; the
stored interval is as before when a time is missing or the salary is not positive,
and is the interval of the request when only the order of the two times is wrong. -/
theorem start_rejected (s : SalaryCalculator) (req : StartRequest) (now : Date)
    (hbad : req.startTime = none ∨ req.endTime = none ∨ orZero req.dailySalary ≤ 0 ∨
      ∃ a b, req.startTime = some a ∧ req.endTime = some b ∧
        (parseTime b).msOfDay ≤ (parseTime a).msOfDay) :
    ∃ t, start s req now = some t ∧
      t.isRunning = s.isRunning ∧ t.chartData = s.chartData ∧
      t.currentCurrency = s.currentCurrency ∧ t.exchangeRate = s.exchangeRate ∧
      t.maxDataPoints = s.maxDataPoints ∧
      t.dailySalary = orZero req.dailySalary ∧
      t.updateFrequency = orDefaultFrequency req.updateFrequency ∧
      (req.startTime = none ∨ req.endTime = none ∨ orZero req.dailySalary ≤ 0 →
        t.startTime = s.startTime ∧ t.endTime = s.endTime) ∧
      (∀ a b, req.startTime = some a → req.endTime = some b →
        0 < orZero req.dailySalary →
        t.startTime = some (parseTime a) ∧ t.endTime = some (parseTime b)) := by
  unfold start
  rcases hs : req.startTime with _ | a
  · simp
  rcases he : req.endTime with _ | b
  · simp
  by_cases hd : orZero req.dailySalary ≤ 0
  · simp [hd]
  · have hord : (parseTime b).msOfDay ≤ (parseTime a).msOfDay := by
      rcases hbad with h | h | h | ⟨a', b', h1, h2, h3⟩
      · rw [hs] at h; cases h
      · rw [he] at h; cases h
      · exact absurd h hd
      · rw [hs] at h1; rw [he] at h2
        cases h1; cases h2; exact h3
    simp [hd, hord]

/-- C9 at the stopped session and the request 10:00-09:00. -/
theorem start_rejected_witness :
    ∃ t, start stoppedState invertedRequest
        { hours := 19, minutes := 0, seconds := 0, milliseconds := 0 } = some t ∧
      t.isRunning = false ∧
      t.chartData = [{ time := "13:30", value := 400, minute := 270 }] := by
  obtain ⟨t, h, hrun, hdata, -⟩ := start_rejected stoppedState invertedRequest
    { hours := 19, minutes := 0, seconds := 0, milliseconds := 0 }
    (Or.inr (Or.inr (Or.inr ⟨(10, 0), (9, 0), rfl, rfl, by decide⟩)))
  exact ⟨t, h, hrun, hdata⟩

/-! ## The window under ticks -/

/-- With a start time set, `updateChartData` returns, writes only `chartData`, and
changes the buckets by a `BucketStep`. -/
theorem updateChartData_bucketStep (s : SalaryCalculator) (st now : Date) (value : ℚ)
    (hst : s.startTime = some st) :
    ∃ w, updateChartData s now value = some { s with chartData := w } ∧
      BucketStep s.maxDataPoints (buckets s) (w.map fun d => d.minute) := by
  obtain ⟨ds, stt, en, uf, running, cur, rate, data, cap⟩ := s
  simp only at hst
  subst hst
  unfold updateChartData
  simp only
  rcases hl : data.getLast? with _ | last
  · exact ⟨data, rfl, Or.inl rfl⟩
  · simp only
    split_ifs with hlt hov
    · refine ⟨_, rfl, Or.inr ⟨last.minute, _, ?_, hlt, ?_⟩⟩
      · simp [buckets, hl]
      · simp only [buckets, List.length_map]
        rw [if_pos (by simpa using hov)]
        simp
    · refine ⟨_, rfl, Or.inr ⟨last.minute, _, ?_, hlt, ?_⟩⟩
      · simp [buckets, hl]
      · simp only [buckets, List.length_map]
        rw [if_neg (by simpa using hov)]
        simp
    · refine ⟨_, rfl, Or.inl ?_⟩
      have h := List.dropLast_append_getLast? last (by rw [hl]; exact rfl)
      simp only [buckets]
      conv_rhs => rw [← h]
      simp

/-- Below the last bucket of a strictly increasing list lie all its other buckets. -/
theorem lt_of_getLast_lt (m : List Int) (last cm : Int) (hs : m.Pairwise (· < ·))
    (hl : m.getLast? = some last) (hlt : last < cm) : ∀ x ∈ m, x < cm := by
  obtain ⟨ys, rfl⟩ := List.getLast?_eq_some_iff.mp hl
  intro x hx
  rw [List.pairwise_append] at hs
  rcases List.mem_append.mp hx with h | h
  · exact lt_trans (hs.2.2 x h last (by simp)) hlt
  · simp at h; rw [h]; exact hlt

/-- A `BucketStep` keeps the buckets strictly increasing. -/
theorem BucketStep.sorted {cap : Nat} {m m' : List Int} (h : BucketStep cap m m')
    (hs : m.Pairwise (· < ·)) : m'.Pairwise (· < ·) := by
  rcases h with rfl | ⟨last, cm, hl, hlt, rfl⟩
  · exact hs
  · have hall := lt_of_getLast_lt m last cm hs hl hlt
    have hp : (m ++ [cm]).Pairwise (· < ·) := by
      rw [List.pairwise_append]
      refine ⟨hs, List.pairwise_singleton _ _, ?_⟩
      intro x hx y hy
      simp at hy; rw [hy]; exact hall x hx
    split_ifs
    · exact hp.sublist (List.tail_sublist _)
    · exact hp

/-- A `BucketStep` at capacity 50 keeps the length within 50 and `Covers`. -/
theorem BucketStep.covers {m m' : List Int} (h : BucketStep 50 m m')
    (hs : m.Pairwise (· < ·)) (hlen : m.length ≤ 50) :
    m'.length ≤ 50 ∧ Covers m m' := by
  rcases h with rfl | ⟨last, cm, hl, hlt, rfl⟩
  · exact ⟨hlen, le_rfl, fun x hx => Or.inl hx, fun y hy => ⟨y, hy, le_rfl⟩⟩
  · have hall := lt_of_getLast_lt m last cm hs hl hlt
    have hlastmem : last ∈ m := by
      obtain ⟨ys, rfl⟩ := List.getLast?_eq_some_iff.mp hl
      simp
    split_ifs with hov
    · have h50 : m.length = 50 := by omega
      rcases m with _ | ⟨a, rest⟩
      · simp at h50
      · simp only [List.cons_append, List.tail_cons]
        have hrest : rest.length = 49 := by simpa using h50
        rw [List.pairwise_cons] at hs
        refine ⟨by simp [hrest], by simp, ?_, ?_⟩
        · intro x hx
          rcases List.mem_cons.mp hx with rfl | hx
          · right
            refine ⟨by simp [hrest], ?_⟩
            intro y hy
            rcases List.mem_append.mp hy with hy | hy
            · exact hs.1 y hy
            · simp at hy; rw [hy]; exact hall x (by simp)
          · left; exact List.mem_append_left _ hx
        · intro y hy
          rcases List.mem_append.mp hy with hy | hy
          · exact ⟨y, List.mem_cons_of_mem _ hy, le_rfl⟩
          · simp at hy; rw [hy]; exact ⟨last, hlastmem, hlt.le⟩
    · refine ⟨by simp; omega, by simp, ?_, ?_⟩
      · intro x hx; left; exact List.mem_append_left _ hx
      · intro y hy
        rcases List.mem_append.mp hy with hy | hy
        · exact ⟨y, hy, le_rfl⟩
        · simp at hy; rw [hy]; exact ⟨last, hlastmem, hlt.le⟩

/-- A window covers itself. -/
theorem Covers.refl (m : List Int) : Covers m m :=
  ⟨le_rfl, fun _ hx => Or.inl hx, fun y hy => ⟨y, hy, le_rfl⟩⟩

/-- The relation `Covers` composes along windows that stay within 50. -/
theorem Covers.trans {a b c : List Int} (h1 : Covers a b) (h2 : Covers b c)
    (hc : c.length ≤ 50) : Covers a c := by
  obtain ⟨l1, k1, b1⟩ := h1
  obtain ⟨l2, k2, b2⟩ := h2
  refine ⟨le_trans l1 l2, ?_, ?_⟩
  · intro x hx
    rcases k1 x hx with hb | ⟨hfull, hlt⟩
    · exact k2 x hb
    · right
      refine ⟨by omega, ?_⟩
      intro z hz
      obtain ⟨y, hy, hyz⟩ := b2 z hz
      exact lt_of_lt_of_le (hlt y hy) hyz
  · intro z hz
    obtain ⟨y, hy, hyz⟩ := b2 z hz
    obtain ⟨x, hx, hxy⟩ := b1 y hy
    exact ⟨x, hx, le_trans hxy hyz⟩

/-- A sequence of ticks on a sorted window within the capacity 50 returns, keeps the
window sorted and within 50, and its buckets `Covers` the earlier ones. -/
theorem updateChartDataAll_covers (ticks : List (Date × ℚ)) (s : SalaryCalculator)
    (st : Date) (hst : s.startTime = some st) (hcap : s.maxDataPoints = 50)
    (hlen : s.chartData.length ≤ 50) (hs : (buckets s).Pairwise (· < ·)) :
    ∃ t, updateChartDataAll s ticks = some t ∧ t.startTime = some st ∧
      t.maxDataPoints = 50 ∧ t.chartData.length ≤ 50 ∧ (buckets t).Pairwise (· < ·) ∧
      Covers (buckets s) (buckets t) := by
  induction ticks generalizing s with
  | nil => exact ⟨s, rfl, hst, hcap, hlen, hs, Covers.refl _⟩
  | cons tick rest ih =>
    obtain ⟨w, hw, hstep⟩ := updateChartData_bucketStep s st tick.1 tick.2 hst
    rw [hcap] at hstep
    have hsorted := hstep.sorted hs
    obtain ⟨hlen', hcov⟩ := hstep.covers hs (by simpa [buckets] using hlen)
    obtain ⟨t, ht, hst', hcap', hlent, hst'', hcov'⟩ :=
      ih { s with chartData := w } hst hcap (by simpa using hlen') hsorted
    refine ⟨t, ?_, hst', hcap', hlent, hst'', hcov.trans hcov' (by simpa [buckets] using hlent)⟩
    simp only [updateChartDataAll, hw]
    exact ht

/-- A sequence of ticks runs its first part, then the rest from where that ended. -/
theorem updateChartDataAll_append (pre post : List (Date × ℚ)) (s : SalaryCalculator) :
    updateChartDataAll s (pre ++ post) =
      (updateChartDataAll s pre).bind fun mid => updateChartDataAll mid post := by
  induction pre generalizing s with
  | nil => rfl
  | cons tick rest ih =>
    simp only [List.cons_append, updateChartDataAll]
    rcases updateChartData s tick.1 tick.2 with _ | t
    · rfl
    · exact ih t

/-- C2: on a window within the capacity 50 and strictly increasing in `minute`, every
sequence of calls of `updateChartData` returns a window that is within 50 and strictly
increasing, and whose buckets are the largest ones seen: a bucket that was in the
window after any part of the sequence (the start included) is still there, or the
final window is full and all its buckets are greater. -/
theorem updateChartDataAll_keeps_largest (s : SalaryCalculator) (st : Date)
    (ticks : List (Date × ℚ))
    (hst : s.startTime = some st) (hcap : s.maxDataPoints = 50)
    (hlen : s.chartData.length ≤ 50)
    (hsorted : s.chartData.Pairwise fun d e => d.minute < e.minute) :
    ∃ t, updateChartDataAll s ticks = some t ∧ t.chartData.length ≤ 50 ∧
      (t.chartData.Pairwise fun d e => d.minute < e.minute) ∧
      ∀ pre post, ticks = pre ++ post →
        ∃ mid, updateChartDataAll s pre = some mid ∧
          ∀ d ∈ mid.chartData, (∃ e ∈ t.chartData, e.minute = d.minute) ∨
            (t.chartData.length = 50 ∧ ∀ e ∈ t.chartData, d.minute < e.minute) := by
  have hs : (buckets s).Pairwise (· < ·) := by
    rw [buckets, List.pairwise_map]; exact hsorted
  obtain ⟨t, ht, -, -, hlent, hst', -⟩ :=
    updateChartDataAll_covers ticks s st hst hcap hlen hs
  refine ⟨t, ht, hlent, ?_, ?_⟩
  · rw [buckets, List.pairwise_map] at hst'; exact hst'
  · intro pre post hsplit
    obtain ⟨mid, hmid, hstm, hcapm, hlenm, hsm, -⟩ :=
      updateChartDataAll_covers pre s st hst hcap hlen hs
    obtain ⟨t', ht', -, -, hlent', -, hcov⟩ :=
      updateChartDataAll_covers post mid st hstm hcapm hlenm hsm
    have heq : t' = t := by
      rw [hsplit, updateChartDataAll_append, hmid] at ht
      simp only [Option.some_bind] at ht
      rw [ht'] at ht
      exact Option.some.inj ht
    subst heq
    refine ⟨mid, hmid, ?_⟩
    intro d hd
    rcases hcov.2.1 d.minute (List.mem_map.mpr ⟨d, hd, rfl⟩) with h | ⟨hfull, hlt⟩
    · left
      obtain ⟨e, he, hm⟩ := List.mem_map.mp h
      exact ⟨e, he, hm⟩
    · right
      refine ⟨by simpa [buckets] using hfull, ?_⟩
      intro e he
      exact hlt e.minute (List.mem_map.mpr ⟨e, he, rfl⟩)
/-- C2 at the running session holding minute 0, ticked at 09:01:00 and 09:01:30. -/
theorem updateChartDataAll_keeps_largest_witness :
    ∃ t, updateChartDataAll tickingState
        [({ hours := 9, minutes := 1, seconds := 0, milliseconds := 0 }, 10),
         ({ hours := 9, minutes := 1, seconds := 30, milliseconds := 0 }, 15)] = some t ∧
      t.chartData.length ≤ 50 ∧
      (t.chartData.Pairwise fun d e => d.minute < e.minute) := by
  obtain ⟨t, h, hlen, hsorted, -⟩ := updateChartDataAll_keeps_largest tickingState
    { hours := 9, minutes := 0, seconds := 0, milliseconds := 0 }
    [({ hours := 9, minutes := 1, seconds := 0, milliseconds := 0 }, 10),
     ({ hours := 9, minutes := 1, seconds := 30, milliseconds := 0 }, 15)]
    rfl rfl (by decide) (by simp [tickingState, SalaryCalculator.new])
  exact ⟨t, h, hlen, hsorted⟩

/-! ## Order of the window in a running session -/

/-- A call of `updateChartData` keeps both times, the running flag and the strict
order of the buckets. -/
theorem updateChartData_sorted (s : SalaryCalculator) (st en now : Date) (value : ℚ)
    (hst : s.startTime = some st) (hen : s.endTime = some en)
    (hs : (buckets s).Pairwise (· < ·)) :
    ∃ t, updateChartData s now value = some t ∧ t.startTime = some st ∧
      t.endTime = some en ∧ t.isRunning = s.isRunning ∧ (buckets t).Pairwise (· < ·) := by
  obtain ⟨w, hw, hstep⟩ := updateChartData_bucketStep s st now value hst
  exact ⟨_, hw, hst, hen, rfl, hstep.sorted hs⟩

/-- With both times set `calculateCurrentEarnings` returns. -/
theorem calculateCurrentEarnings_isSome (s : SalaryCalculator) (st en now : Date)
    (hst : s.startTime = some st) (hen : s.endTime = some en) :
    ∃ e, calculateCurrentEarnings s now = some e := by
  have hw : ∃ w, calculateWorkedMinutes s now = some w := by
    simp only [calculateWorkedMinutes, hst, hen]
    split_ifs <;> exact ⟨_, rfl⟩
  obtain ⟨w, hw⟩ := hw
  simp only [calculateCurrentEarnings, hw, calculateTotalMinutes, hst, hen]
  split_ifs <;> exact ⟨_, rfl⟩

/-- With both times set, `updateDisplay` returns and keeps the times, the running
flag and the strict order of the buckets. -/
theorem updateDisplay_sorted (s : SalaryCalculator) (st en now : Date)
    (hst : s.startTime = some st) (hen : s.endTime = some en)
    (hs : (buckets s).Pairwise (· < ·)) :
    ∃ t, updateDisplay s now = some t ∧ t.startTime = some st ∧
      t.endTime = some en ∧ t.isRunning = s.isRunning ∧ (buckets t).Pairwise (· < ·) := by
  obtain ⟨e, he⟩ := calculateCurrentEarnings_isSome s st en now hst hen
  simp only [updateDisplay, he]
  exact updateChartData_sorted s st en now _ hst hen hs

/-- The conversion of lines 270-297 copies every `minute` and no other field but
the currency. -/
theorem convertChartData_frame (s : SalaryCalculator) :
    (convertChartData s).startTime = s.startTime ∧
    (convertChartData s).endTime = s.endTime ∧
    (convertChartData s).isRunning = s.isRunning ∧
    buckets (convertChartData s) = buckets s := by
  unfold convertChartData buckets
  cases s.currentCurrency <;> simp [Function.comp_def]

/-- With both times set, `toggleCurrency` returns and keeps the times, the running
flag and the strict order of the buckets. -/
theorem toggleCurrency_sorted (s : SalaryCalculator) (st en now : Date)
    (hst : s.startTime = some st) (hen : s.endTime = some en)
    (hs : (buckets s).Pairwise (· < ·)) :
    ∃ t, toggleCurrency s now = some t ∧ t.startTime = some st ∧
      t.endTime = some en ∧ t.isRunning = s.isRunning ∧ (buckets t).Pairwise (· < ·) := by
  obtain ⟨h1, h2, h3, h4⟩ := convertChartData_frame s
  unfold toggleCurrency
  simp only
  split_ifs with hrun
  · obtain ⟨t, ht, a, b, c, d⟩ := updateDisplay_sorted (convertChartData s) st en now
      (h1.trans hst) (h2.trans hen) (by rw [h4]; exact hs)
    exact ⟨t, ht, a, b, c.trans h3, d⟩
  · exact ⟨_, rfl, h1.trans hst, h2.trans hen, h3, by rw [h4]; exact hs⟩

/-- The buckets that the backfill leaves on an empty window are 0, 1, 2, ... -/
theorem generateHistoricalData_sorted (s : SalaryCalculator) (st en now : Date)
    (hst : s.startTime = some st) (hen : s.endTime = some en) (hfresh : s.chartData = []) :
    ∃ t, generateHistoricalData s now = some t ∧ t.startTime = some st ∧
      t.endTime = some en ∧ (buckets t).Pairwise (· < ·) := by
  by_cases hlt : now.hours * 3600000 + now.minutes * 60000 + now.seconds * 1000 <
      st.hours * 3600000 + st.minutes * 60000
  · refine ⟨s, generateHistoricalData_before s st now hst hlt, hst, hen, ?_⟩
    simp [buckets, hfresh]
  · refine ⟨_, generateHistoricalData_eq s st en now hst hen (not_lt.mp hlt), hst, hen, ?_⟩
    simp only [buckets, hfresh, List.nil_append, List.map_map]
    rw [List.pairwise_map]
    refine (List.pairwise_lt_range _).imp ?_
    intro a b hab
    simp only [Function.comp, historicalPoint]
    exact_mod_cast hab

/-- With both times set, every sequence of events returns and keeps the strict order
of the buckets. -/
theorem run_sorted (events : List Event) (s : SalaryCalculator) (st en : Date)
    (hst : s.startTime = some st) (hen : s.endTime = some en)
    (hs : (buckets s).Pairwise (· < ·)) :
    ∃ t, run s events = some t ∧ (buckets t).Pairwise (· < ·) := by
  induction events generalizing s with
  | nil => exact ⟨s, rfl, hs⟩
  | cons e rest ih =>
    have hstep : ∃ t, step s e = some t ∧ t.startTime = some st ∧
        t.endTime = some en ∧ t.isRunning = s.isRunning ∧ (buckets t).Pairwise (· < ·) := by
      cases e with
      | tick now => exact updateDisplay_sorted s st en now hst hen hs
      | toggle now => exact toggleCurrency_sorted s st en now hst hen hs
    obtain ⟨t, ht, a, b, -, d⟩ := hstep
    obtain ⟨u, hu, hsu⟩ := ih t a b d
    refine ⟨u, ?_, hsu⟩
    simp only [run, ht]
    exact hu

/-- C10: a request that passes the checks of `start` starts a running session, and
after every sequence of timer ticks and currency toggles, at whatever instants, the
callbacks have all returned and the window is strictly increasing in `minute`: of two
samples the earlier has the smaller minute. -/
theorem reachable_window_strictly_increasing (s : SalaryCalculator) (req : StartRequest)
    (now : Date) (events : List Event) (a b : Nat × Nat)
    (hstart : req.startTime = some a) (hend : req.endTime = some b)
    (hrate : 0 < orZero req.dailySalary)
    (horder : (parseTime a).msOfDay < (parseTime b).msOfDay) :
    ∃ s1 s2, start s req now = some s1 ∧ s1.isRunning = true ∧
      run s1 events = some s2 ∧
      s2.chartData.Pairwise fun d e => d.minute < e.minute := by
  obtain ⟨s3, h3, hst3, hen3, hs3⟩ := generateHistoricalData_sorted
    { s with
      dailySalary := orZero req.dailySalary
      updateFrequency := orDefaultFrequency req.updateFrequency
      startTime := some (parseTime a)
      endTime := some (parseTime b)
      chartData := [] }
    (parseTime a) (parseTime b) now rfl rfl rfl
  obtain ⟨s1, h1, hst1, hen1, hrun1, hs1⟩ := updateDisplay_sorted
    { s3 with isRunning := true } (parseTime a) (parseTime b) now hst3 hen3 hs3
  obtain ⟨s2, h2, hs2⟩ := run_sorted events s1 (parseTime a) (parseTime b) hst1 hen1 hs1
  refine ⟨s1, s2, ?_, hrun1, h2, ?_⟩
  · simp only [start, hstart, hend, not_le.mpr hrate, not_le.mpr horder, if_false, h3]
    exact h1
  · rw [buckets, List.pairwise_map] at hs2; exact hs2

/-- C10 at the request 5400 a day, 09:00-18:00, started at 09:00:30, then a tick at
09:01:10, a toggle at 09:02:00 and a tick at 08:00:00. -/
theorem reachable_window_strictly_increasing_witness :
    ∃ s1 s2, start SalaryCalculator.new tickingRequest
        { hours := 9, minutes := 0, seconds := 30, milliseconds := 0 } = some s1 ∧
      s1.isRunning = true ∧
      run s1 [Event.tick { hours := 9, minutes := 1, seconds := 10, milliseconds := 0 },
        Event.toggle { hours := 9, minutes := 2, seconds := 0, milliseconds := 0 },
        Event.tick { hours := 8, minutes := 0, seconds := 0, milliseconds := 0 }] = some s2 ∧
      s2.chartData.Pairwise fun d e => d.minute < e.minute :=
  reachable_window_strictly_increasing SalaryCalculator.new tickingRequest _ _ (9, 0) (18, 0)
    rfl rfl (by norm_num [tickingRequest, orZero]) (by decide)

/-! ## Ticks on an empty window -/

/-- On an empty window `updateChartData` returns at its guard (lines 483-486) and
leaves the state as it is. -/
theorem updateChartData_of_empty (s : SalaryCalculator) (st now : Date) (value : ℚ)
    (hst : s.startTime = some st) (hempty : s.chartData = []) :
    updateChartData s now value = some s := by
  simp [updateChartData, hst, hempty]

/-- On an empty window, with both times set, `updateDisplay` leaves the state as it
is. -/
theorem updateDisplay_of_empty (s : SalaryCalculator) (st en now : Date)
    (hst : s.startTime = some st) (hen : s.endTime = some en)
    (hempty : s.chartData = []) :
    updateDisplay s now = some s := by
  obtain ⟨e, he⟩ := calculateCurrentEarnings_isSome s st en now hst hen
  simp only [updateDisplay, he]
  exact updateChartData_of_empty s st now _ hst hempty

/-- The conversion of lines 270-297 leaves an empty window empty. -/
theorem convertChartData_of_empty (s : SalaryCalculator) (hempty : s.chartData = []) :
    (convertChartData s).chartData = [] := by
  unfold convertChartData
  cases s.currentCurrency <;> simp [hempty]

/-- On an empty window every callback of a running session returns and leaves the
times set and the window empty. -/
theorem step_of_empty (s : SalaryCalculator) (st en : Date) (e : Event)
    (hst : s.startTime = some st) (hen : s.endTime = some en)
    (hempty : s.chartData = []) :
    ∃ t, step s e = some t ∧ t.startTime = some st ∧ t.endTime = some en ∧
      t.chartData = [] := by
  cases e with
  | tick now =>
    exact ⟨s, updateDisplay_of_empty s st en now hst hen hempty, hst, hen, hempty⟩
  | toggle now =>
    obtain ⟨h1, h2, -, -⟩ := convertChartData_frame s
    have h3 := convertChartData_of_empty s hempty
    simp only [step, toggleCurrency]
    split_ifs
    · exact ⟨_, updateDisplay_of_empty (convertChartData s) st en now
        (h1.trans hst) (h2.trans hen) h3, h1.trans hst, h2.trans hen, h3⟩
    · exact ⟨_, rfl, h1.trans hst, h2.trans hen, h3⟩

/-- On an empty window every sequence of callbacks returns and leaves the window
empty. -/
theorem run_of_empty (events : List Event) (s : SalaryCalculator) (st en : Date)
    (hst : s.startTime = some st) (hen : s.endTime = some en)
    (hempty : s.chartData = []) :
    ∃ t, run s events = some t ∧ t.chartData = [] := by
  induction events generalizing s with
  | nil => exact ⟨s, rfl, hempty⟩
  | cons e rest ih =>
    obtain ⟨t, ht, a, b, c⟩ := step_of_empty s st en e hst hen hempty
    obtain ⟨u, hu, hue⟩ := ih t a b c
    refine ⟨u, ?_, hue⟩
    simp only [run, ht]
    exact hu

/-- A sequence of calls of `updateChartData` on an empty window returns the state it
started from. -/
theorem updateChartDataAll_of_empty (ticks : List (Date × ℚ)) (s : SalaryCalculator)
    (st : Date) (hst : s.startTime = some st) (hempty : s.chartData = []) :
    updateChartDataAll s ticks = some s := by
  induction ticks with
  | nil => rfl
  | cons tick rest ih =>
    simp only [updateChartDataAll, updateChartData_of_empty s st tick.1 tick.2 hst hempty]
    exact ih

/-- C11: on an empty window, with a start time set, `updateChartData` at every instant
and with every value returns the state unchanged, and so does every sequence of such
calls; a valid request started before the interval start gives a running session with
an empty window, and after every sequence of timer ticks and currency toggles the
callbacks have returned and the window is still empty. -/
theorem empty_window_never_records :
    (∀ (s : SalaryCalculator) (st : Date), s.startTime = some st → s.chartData = [] →
      (∀ (now : Date) (value : ℚ), updateChartData s now value = some s) ∧
      (∀ ticks : List (Date × ℚ), updateChartDataAll s ticks = some s)) ∧
    (∀ (s : SalaryCalculator) (req : StartRequest) (now : Date) (a b : Nat × Nat),
      req.startTime = some a → req.endTime = some b → 0 < orZero req.dailySalary →
      (parseTime a).msOfDay < (parseTime b).msOfDay →
      now.msOfDay < (parseTime a).msOfDay →
      ∃ s1, start s req now = some s1 ∧ s1.isRunning = true ∧ s1.chartData = [] ∧
        ∀ events : List Event, ∃ s2, run s1 events = some s2 ∧ s2.chartData = []) := by
  constructor
  · intro s st hst hempty
    exact ⟨fun now value => updateChartData_of_empty s st now value hst hempty,
      fun ticks => updateChartDataAll_of_empty ticks s st hst hempty⟩
  · intro s req now a b hstart hend hrate horder hbefore
    have hlt : now.hours * 3600000 + now.minutes * 60000 + now.seconds * 1000 <
        (parseTime a).hours * 3600000 + (parseTime a).minutes * 60000 := by
      simp only [Date.msOfDay, parseTime] at hbefore ⊢
      omega
    have h3 := generateHistoricalData_before
      { s with
        dailySalary := orZero req.dailySalary
        updateFrequency := orDefaultFrequency req.updateFrequency
        startTime := some (parseTime a)
        endTime := some (parseTime b)
        chartData := [] }
      (parseTime a) now rfl hlt
    have h1 := updateDisplay_of_empty
      { s with
        dailySalary := orZero req.dailySalary
        updateFrequency := orDefaultFrequency req.updateFrequency
        startTime := some (parseTime a)
        endTime := some (parseTime b)
        chartData := []
        isRunning := true }
      (parseTime a) (parseTime b) now rfl rfl rfl
    refine ⟨_, ?_, rfl, rfl, fun events =>
      run_of_empty events
        { s with
          dailySalary := orZero req.dailySalary
          updateFrequency := orDefaultFrequency req.updateFrequency
          startTime := some (parseTime a)
          endTime := some (parseTime b)
          chartData := []
          isRunning := true }
        (parseTime a) (parseTime b) rfl rfl rfl⟩
    simp only [start, hstart, hend, not_le.mpr hrate, not_le.mpr horder, if_false, h3]
    exact h1

/-- C11 at the request 5400 a day, 09:00-18:00, started at 08:30:00 and ticked at
09:05:00 and at 10:00:00: no sample is recorded. -/
theorem empty_window_never_records_witness :
    ∃ s1, start SalaryCalculator.new tickingRequest
        { hours := 8, minutes := 30, seconds := 0, milliseconds := 0 } = some s1 ∧
      s1.isRunning = true ∧ s1.chartData = [] ∧
      ∃ s2, run s1
        [Event.tick { hours := 9, minutes := 5, seconds := 0, milliseconds := 0 },
         Event.tick { hours := 10, minutes := 0, seconds := 0, milliseconds := 0 }] =
          some s2 ∧ s2.chartData = [] := by
  obtain ⟨s1, h1, hrun, hempty, hall⟩ := empty_window_never_records.2
    SalaryCalculator.new tickingRequest
    { hours := 8, minutes := 30, seconds := 0, milliseconds := 0 } (9, 0) (18, 0)
    rfl rfl (by norm_num [tickingRequest, orZero]) (by decide) (by decide)
  exact ⟨s1, h1, hrun, hempty, hall _⟩

end SalaryDisplay
